import Mathlib

/-!
Verification of the agentic tool-orchestration core of the jevehome-agent
repository (server side): a shallow embedding, in Lean 4, of

  * `src/server/services/mcpClient.js`      (tool-name sanitization, the
    external-tool registry and its connect/disconnect life cycle, and
    `callMcpTool`),
  * `src/server/services/functionCalling.js` (`executeFunctionCall`, the
    built-in tool dispatcher),
  * `src/server/services/gemini.js`          (`isUnsatisfactoryResponse`,
    `buildMcpDataArtifact`, `getLabelForFunction`, `runReActLoop` and the
    orchestrating `chat` function).

JavaScript values that flow through these functions (tool results, chart
data, map payloads) are modelled by the inductive type `Js` below, which
mirrors the JSON-ish value universe the code manipulates, together with
JavaScript truthiness, property access (plain and optional-chained, the
plain form throwing on `null`/`undefined` bases) and `JSON` round-tripping.
Exceptions are modelled with `Except`: a `.error` value is a thrown
JavaScript exception crossing the function boundary.

External collaborators (the Gemini model, geocoding, the MCP SDK transport,
the host `JSON.parse` and regular-expression engine) are oracles passed in
as parameters; the control logic under verification is translated
line by line from the source.

Numbers are modelled as integers: none of the verified properties depends
on fractional or floating-point behaviour.
-/

/-! ## JavaScript value model -/

mutual
/-- A JavaScript/JSON-ish runtime value, as manipulated by the orchestration
code: `null`, `undefined`, booleans, numbers, strings, arrays and plain
objects (ordered field lists, as produced by object literals and
`JSON.parse`). -/
inductive Js where
  | null
  | undefined
  | bool (b : Bool)
  | num (n : Int)
  | str (s : String)
  | arr (xs : JsL)
  | obj (fs : JsF)
/-- A list of `Js` values (spine of a JavaScript array). -/
inductive JsL where
  | nil
  | cons (hd : Js) (tl : JsL)
/-- An ordered field list of a JavaScript object. -/
inductive JsF where
  | nil
  | cons (k : String) (v : Js) (tl : JsF)
end

/-- Build a `JsL` from a Lean list. -/
def JsL.ofList : List Js → JsL
  | [] => .nil
  | x :: t => .cons x (JsL.ofList t)

/-- Turn a `JsL` back into a Lean list. -/
def JsL.toList : JsL → List Js
  | .nil => []
  | .cons x t => x :: JsL.toList t

/-- Array literal helper. -/
def jarr (xs : List Js) : Js := .arr (JsL.ofList xs)

/-- Build a `JsF` from a Lean association list. -/
def JsF.ofList : List (String × Js) → JsF
  | [] => .nil
  | (k, v) :: t => .cons k v (JsF.ofList t)

/-- Object literal helper. -/
def jobj (fs : List (String × Js)) : Js := .obj (JsF.ofList fs)

/-- Length of a JavaScript array. -/
def JsL.length : JsL → Nat
  | .nil => 0
  | .cons _ t => JsL.length t + 1

/-- Zero-based element access on a JavaScript array (missing index reads as
`undefined`). -/
def JsL.idx : JsL → Nat → Js
  | .nil, _ => .undefined
  | .cons x _, 0 => x
  | .cons _ t, n + 1 => JsL.idx t n

/-- First own-property lookup on an object field list (the embedding never
constructs duplicate keys, so first match agrees with JavaScript). -/
def JsF.lookup : JsF → String → Option Js
  | .nil, _ => none
  | .cons k v t, key => if k = key then some v else JsF.lookup t key

/-- Embedding of `v === null || v === undefined` (the values optional chaining guards). -/
def Js.nullish : Js → Bool
  | .null => true
  | .undefined => true
  | _ => false

/-- JavaScript truthiness of a value. -/
def Js.truthy : Js → Bool
  | .null => false
  | .undefined => false
  | .bool b => b
  | .num n => n != 0
  | .str s => s ≠ ""
  | .arr _ => true
  | .obj _ => true

/-- Embedding of `Array.isArray`. -/
def Js.isArr : Js → Bool
  | .arr _ => true
  | _ => false

/-- Is this value `undefined`? -/
def Js.isUndefined : Js → Bool
  | .undefined => true
  | _ => false

/-- Strict equality against a string literal (`v === "s"`). -/
def Js.isStr (v : Js) (s : String) : Bool :=
  match v with
  | .str t => t = s
  | _ => false

/-- Property read `base.key` on a base already known not to be nullish:
objects yield the field (or `undefined`), primitives and arrays yield
`undefined` (no key used by the modelled code collides with built-in
properties of primitives or arrays). -/
def jsRead (v : Js) (k : String) : Js :=
  match v with
  | .obj fs => (fs.lookup k).getD .undefined
  | _ => .undefined

/-- Plain property access `base.key`: throws a `TypeError` (modelled as
`Except.error ()`) when the base is `null` or `undefined`. -/
def jsGet (v : Js) (k : String) : Except Unit Js :=
  if v.nullish then .error () else .ok (jsRead v k)

/-- Optional-chained property access `base?.key`. -/
def jsGetOpt (v : Js) (k : String) : Js :=
  if v.nullish then .undefined else jsRead v k

/-- Optional-chained index access `base?.[i]`: arrays index their elements,
strings index their characters, objects look up the decimal key. -/
def jsIdxOpt (v : Js) (i : Nat) : Js :=
  match v with
  | .null => .undefined
  | .undefined => .undefined
  | .arr xs => xs.idx i
  | .str s => match s.toList.get? i with
      | some c => .str (String.mk [c])
      | none => .undefined
  | .obj fs => (fs.lookup (toString i)).getD .undefined
  | _ => .undefined

/-- JavaScript `a || b`. -/
def jsOr (a b : Js) : Js := if a.truthy then a else b

/-- JavaScript `a ?? b`. -/
def jsCoalesce (a b : Js) : Js := if a.nullish then b else a

mutual
/-- Template-literal interpolation of a value (the semantics of
`${v}` / `String(v)`): arrays join their displayed elements with commas,
objects display as `[object Object]`. -/
def Js.display : Js → String
  | .null => "null"
  | .undefined => "undefined"
  | .bool b => if b then "true" else "false"
  | .num n => toString n
  | .str s => s
  | .arr xs => JsL.displayList xs
  | .obj _ => "[object Object]"
/-- Embedding of `Array.prototype.toString`: elements joined by commas, `null` and
`undefined` elements displaying as empty. -/
def JsL.displayList : JsL → String
  | .nil => ""
  | .cons x .nil => JsL.displayElem x
  | .cons x t => JsL.displayElem x ++ "," ++ JsL.displayList t
/-- One element of an array display (`null`/`undefined` display empty, the
rest as in `Js.display`). -/
def JsL.displayElem : Js → String
  | .null => ""
  | .undefined => ""
  | .bool b => if b then "true" else "false"
  | .num n => toString n
  | .str s => s
  | .arr xs => JsL.displayList xs
  | .obj _ => "[object Object]"
end

/-- Escape a string for inclusion in JSON output (quotes and backslashes;
control characters do not occur in the modelled data). -/
def jsonEscape (s : String) : String :=
  String.mk (s.toList.flatMap fun c =>
    if c = '"' ∨ c = '\\' then ['\\', c] else [c])

mutual
/-- Embedding of `JSON.stringify` (compact form; the indent argument the source passes in
its pretty-print fallback affects only whitespace). `undefined` at top
level stringifies to the `undefined` value, modelled as `none`. -/
def jsonStringify : Js → Option String
  | .null => some "null"
  | .undefined => none
  | .bool b => some (if b then "true" else "false")
  | .num n => some (toString n)
  | .str s => some ("\"" ++ jsonEscape s ++ "\"")
  | .arr xs => some ("[" ++ jsonStringifyL xs ++ "]")
  | .obj fs => some ("\x7b" ++ jsonStringifyF fs ++ "\x7d")
/-- Array elements of `JSON.stringify` (`undefined` elements become
`null`). -/
def jsonStringifyL : JsL → String
  | .nil => ""
  | .cons x .nil => (jsonStringify x).getD "null"
  | .cons x t => (jsonStringify x).getD "null" ++ "," ++ jsonStringifyL t
/-- Object fields of `JSON.stringify` (`undefined`-valued fields are
dropped). -/
def jsonStringifyF : JsF → String
  | .nil => ""
  | .cons k v t =>
    match jsonStringify v with
    | none => jsonStringifyF t
    | some sv =>
      let rest := jsonStringifyF t
      let entry := "\"" ++ jsonEscape k ++ "\":" ++ sv
      if rest = "" then entry else entry ++ "," ++ rest
end

mutual
/-- Embedding of `JSON.parse(JSON.stringify(v))`: the deep clone the artifact builder
performs — `undefined`-valued object fields are dropped, `undefined` array
elements become `null`, everything else is copied. -/
def jsonClone : Js → Js
  | .arr xs => .arr (jsonCloneL xs)
  | .obj fs => .obj (jsonCloneF fs)
  | v => v
/-- Clone of array elements. -/
def jsonCloneL : JsL → JsL
  | .nil => .nil
  | .cons .undefined t => .cons .null (jsonCloneL t)
  | .cons x t => .cons (jsonClone x) (jsonCloneL t)
/-- Clone of object fields. -/
def jsonCloneF : JsF → JsF
  | .nil => .nil
  | .cons k v t =>
    if v.isUndefined then jsonCloneF t else .cons k (jsonClone v) (jsonCloneF t)
end

/-- The field values of an object field list, in order. -/
def JsF.values : JsF → List Js
  | .nil => []
  | .cons _ x t => x :: JsF.values t

/-- Embedding of `Object.values` for the non-array branch of the table-body builder:
objects yield their field values, strings their characters, other
primitives an empty list; `null`/`undefined` throw. -/
def jsObjectValues (v : Js) : Except Unit (List Js) :=
  match v with
  | .null => .error ()
  | .undefined => .error ()
  | .obj fs => .ok fs.values
  | .str s => .ok (s.toList.map fun c => .str (String.mk [c]))
  | _ => .ok []

/-- Replace the first field named `k`, or append it (JavaScript property
assignment `o[k] = x` on a plain object). -/
def JsF.setField : JsF → String → Js → JsF
  | .nil, k, x => .cons k x .nil
  | .cons k' v t, k, x =>
    if k' = k then .cons k x t else .cons k' v (JsF.setField t k x)

/-- Remove the first field named `k` (JavaScript `delete o[k]`). -/
def JsF.delField : JsF → String → JsF
  | .nil, _ => .nil
  | .cons k' v t, k => if k' = k then t else .cons k' v (JsF.delField t k)

/-- Property assignment on a value (only objects are updated; the embedding
uses this solely where the base is known to be an object). -/
def objSet (v : Js) (k : String) (x : Js) : Js :=
  match v with
  | .obj fs => .obj (fs.setField k x)
  | _ => v

/-- Embedding of `delete v[k]` on a value. -/
def objDel (v : Js) (k : String) : Js :=
  match v with
  | .obj fs => .obj (fs.delField k)
  | _ => v

/-! ## Tool name sanitization (`src/server/services/mcpClient.js` 18-22) -/

/-- Characters the Gemini tool-name character class `[a-zA-Z0-9_.:\-]`
accepts. -/
def allowedToolChar (c : Char) : Bool :=
  let n := c.toNat
  (decide (97 ≤ n) && decide (n ≤ 122)) || (decide (65 ≤ n) && decide (n ≤ 90)) ||
    (decide (48 ≤ n) && decide (n ≤ 57)) || n == 95 || n == 46 || n == 58 || n == 45

/-- Characters the leading-character test `/^[a-zA-Z_]/` accepts. -/
def startToolChar (c : Char) : Bool :=
  let n := c.toNat
  (decide (97 ≤ n) && decide (n ≤ 122)) || (decide (65 ≤ n) && decide (n ≤ 90)) || n == 95

/-- Does the regular expression `/^[a-zA-Z_]/` match (it fails on the empty
string)? -/
def toolHeadOk : List Char → Bool
  | [] => false
  | c :: _ => startToolChar c

/-- Embedding of `sanitizeToolName` on the character list: replace every character
outside `[a-zA-Z0-9_.:\-]` with `_`, prepend `_` when the first character is
not a letter or underscore, truncate to 64 characters. -/
def sanitizeChars (l : List Char) : List Char :=
  let r := l.map fun c => if allowedToolChar c then c else '_'
  (if toolHeadOk r then r else '_' :: r).take 64

/-- Embedding of `sanitizeToolName` (mcpClient.js 18-22). The source operates on UTF-16
code units; since every replacement output is ASCII and replacement happens
before truncation, the character-level model agrees with it. -/
def sanitizeToolName (s : String) : String :=
  String.mk (sanitizeChars s.toList)

/-! ## Low-confidence reply detection (`src/server/services/gemini.js` 284-294) -/

/-- The apostrophe character, as a one-character string. -/
def apos : String := String.mk [Char.ofNat 39]

/-- The whitespace characters `String.prototype.trim` strips (ASCII subset;
the modelled strings contain no exotic Unicode spaces). -/
def jsWhitespace (c : Char) : Bool :=
  c == ' ' || c == '\t' || c == '\n' || c == '\r' || c == '\x0b' || c == '\x0c'

/-- Embedding of `text.trim()` on the character list. -/
def trimChars (l : List Char) : List Char :=
  ((l.dropWhile jsWhitespace).reverse.dropWhile jsWhitespace).reverse

/-- Embedding of `String.prototype.toLowerCase` on one character (ASCII; the
low-confidence phrases are ASCII). -/
def lowerChar (c : Char) : Char :=
  if 65 ≤ c.toNat ∧ c.toNat ≤ 90 then Char.ofNat (c.toNat + 32) else c

/-- Does `pat` occur at the start of `l`? -/
def leadsWith : List Char → List Char → Bool
  | [], _ => true
  | _ :: _, [] => false
  | a :: as, b :: bs => a == b && leadsWith as bs

/-- Embedding of `hay.includes(pat)`: substring occurrence. -/
def hasSub (pat : List Char) : List Char → Bool
  | [] => pat.isEmpty
  | c :: t => leadsWith pat (c :: t) || hasSub pat t

/-- The fixed low-confidence phrase list of `isUnsatisfactoryResponse`. -/
def lowConfPhrases : List String :=
  [ "i don" ++ apos ++ "t know", "i couldn" ++ apos ++ "t find",
    "i" ++ apos ++ "m unable to", "i am unable to",
    "no information", "i cannot", "i can" ++ apos ++ "t",
    "i" ++ apos ++ "m not sure", "i am not sure",
    "unfortunately", "i don" ++ apos ++ "t have access", "i was unable" ]

/-- Embedding of `isUnsatisfactoryResponse` (gemini.js 284-294): empty or
shorter-than-60-characters trimmed text, or any low-confidence phrase
occurring in the lower-cased text. -/
def isUnsatisfactoryResponse (text : String) : Bool :=
  if text = "" ∨ (trimChars text.toList).length < 60 then true
  else lowConfPhrases.any fun p => hasSub p.toList (text.toList.map lowerChar)

/-! ## Map-payload labels (`src/server/services/gemini.js` 476-486) -/

/-- Embedding of `getLabelForFunction` (gemini.js 476-486): the human-readable label
attached to each accumulated map payload, derived from the call name and
arguments. -/
def getLabelForFunction (name : String) (args : Js) : String :=
  if name = "search_places" then
    "Search: " ++ (jsOr (jsRead args "query") (.str "Places")).display
  else if name = "get_directions" then
    "Directions: " ++ (jsOr (jsRead args "origin") (.str "")).display ++ " → " ++
      (jsOr (jsRead args "destination") (.str "")).display
  else if name = "show_map" then
    "Map: " ++ (jsOr (jsRead args "location") (.str "")).display
  else if name = "show_traffic" then
    "Traffic: " ++ (jsOr (jsRead args "location") (.str "")).display
  else if name = "show_street_view" then
    "Street View: " ++ (jsOr (jsRead args "location") (.str "")).display
  else if name = "get_user_location" then "Your Location"
  else name

/-! ## External tool registry (`src/server/services/mcpClient.js` 13-15, 24-105, 246-310)

The module-level maps `clients` (serverName to live client entry) and
`toolRegistry` (sanitized Gemini name to server/original name) are modelled
as a state, and the exported registry-mutating entry points as operations on
it. JavaScript `Map` iteration order and `Map.set`/`Map.delete` semantics
are mirrored by association lists with replace-or-append insertion and
key-removing deletion. -/

/-- The registry state: the key set of the `clients` map and the
`toolRegistry` association (sanitized name maps to
(serverName, originalName)). -/
structure McpState where
  clients : List String
  registry : List (String × String × String)

/-- Both maps empty (module load). -/
def emptyMcpState : McpState := ⟨[], []⟩

/-- Embedding of `Map.set` on the tool registry: replace the first binding of the key or
append a new one. -/
def setReg : List (String × String × String) → String → String × String →
    List (String × String × String)
  | [], k, v => [(k, v)]
  | (k', v') :: t, k, v =>
    if k' = k then (k, v) :: t else (k', v') :: setReg t k v

/-- Embedding of `Map.get` on the tool registry. -/
def lookupReg : List (String × String × String) → String → Option (String × String)
  | [], _ => none
  | (k', v) :: t, k => if k' = k then some v else lookupReg t k

/-- Embedding of `Map.set` on the clients map (only the key matters to the claims). -/
def setClient (cs : List String) (name : String) : List String :=
  if name ∈ cs then cs else cs ++ [name]

/-- Embedding of `disconnectMcpServer` (mcpClient.js 292-306): an early return when the
server has no client entry; otherwise every registry binding whose server
matches is deleted and the client entry is removed. -/
def applyDisconnect (s : McpState) (name : String) : McpState :=
  if name ∈ s.clients then
    ⟨s.clients.filter (fun c => c != name),
     s.registry.filter (fun e => e.2.1 != name)⟩
  else s

/-- The shared tail of `connectMcpServer` and of one successful server in
`initializeMcpClients`: record the client entry, then register each listed
tool under `sanitizeToolName(serverName ++ "__" ++ tool.name)`. -/
def addServer (s : McpState) (name : String) (toolNames : List String) : McpState :=
  ⟨setClient s.clients name,
   toolNames.foldl
     (fun r t => setReg r (sanitizeToolName (name ++ "__" ++ t)) (name, t))
     s.registry⟩

/-- One registry-mutating event, as performed by the exported entry points:
`connectMcpServer` (which first disconnects any same-named server and whose
connect/listTools steps may throw after that disconnect), one server handled
by `initializeMcpClients` (no prior disconnect; a failure changes nothing
because the maps are only written after `listTools` succeeds),
`disconnectMcpServer`, and `shutdownMcpClients`. -/
inductive McpOp where
  | connectOk (name : String) (toolNames : List String)
  | connectFail (name : String)
  | bootOk (name : String) (toolNames : List String)
  | bootFail (name : String)
  | disconnect (name : String)
  | shutdown

/-- Apply one operation to the registry state. -/
def applyMcpOp (s : McpState) : McpOp → McpState
  | .connectOk name tools => addServer (applyDisconnect s name) name tools
  | .connectFail name => applyDisconnect s name
  | .bootOk name tools => addServer s name tools
  | .bootFail _ => s
  | .disconnect name => applyDisconnect s name
  | .shutdown => emptyMcpState

/-- Run a sequence of registry operations from the empty state. -/
def runMcpOps (ops : List McpOp) : McpState :=
  ops.foldl applyMcpOp emptyMcpState

/-- Embedding of `isMcpTool` (mcpClient.js 154-156). -/
def isMcpTool (s : McpState) (name : String) : Bool :=
  (lookupReg s.registry name).isSome

/-- The three ways the head of `callMcpTool` (mcpClient.js 158-168) can
dispatch a name: unknown tool, registered but server not connected, or
invoke on a connected server. -/
inductive McpDispatch where
  | unknownTool
  | notConnected
  | invoke (serverName originalName : String)
deriving DecidableEq

/-- The dispatch decision of `callMcpTool` (mcpClient.js 159-168). -/
def callMcpToolBranch (s : McpState) (name : String) : McpDispatch :=
  match lookupReg s.registry name with
  | none => .unknownTool
  | some (serverName, originalName) =>
    if serverName ∈ s.clients then .invoke serverName originalName
    else .notConnected

/-! ## External tool invocation (`src/server/services/mcpClient.js` 158-244) -/

/-- One content block of an MCP tool result. -/
structure McpContent where
  ctype : String
  ctext : String

/-- The shape `client.callTool` resolves to:
`{isError, content: [{type, text}]}` (content may be absent). -/
structure McpCallResult where
  isError : Bool
  content : Option (List McpContent)

/-- Host collaborators of `callMcpTool`: the MCP SDK call (which may throw,
e.g. on timeout), the host `JSON.parse` (`none` models a thrown
`SyntaxError`), and the two regular-expression scans of the text fallback
(fenced ```json block capture, and an embedded `<table>...</table>`). -/
structure McpEnv where
  callTool : String → Js → Except String McpCallResult
  parseJson : String → Option Js
  matchJsonBlock : String → Option String
  matchHtmlTable : String → Option String

/-- The expression on mcpClient.js 186-189 (filter the text-typed content
blocks, join their text with newlines, default to `d`):
text blocks joined by newlines, with `d` substituted when the content is
absent or the joined text is empty (both are falsy). -/
def mcpJoinOr (content : Option (List McpContent)) (d : String) : String :=
  match content with
  | none => d
  | some l =>
    let t := String.intercalate "\n"
      ((l.filter fun c => c.ctype == "text").map fun c => c.ctext)
    if t = "" then d else t

/-- The structured-data extraction `callMcpTool` performs on the JSON-parsed
response (mcpClient.js 195-212): a conventional `{answers: [{text,
chartData}]}` shape replaces the result text and supplies chart data. -/
def mcpParsedExtract (text : String) (parsed : Js) : Js × Js :=
  let a0 := jsIdxOpt (jsGetOpt parsed "answers") 0
  if a0.truthy then
    let rt := if (jsRead a0 "text").truthy then jsRead a0 "text" else .str text
    let cd := if (jsRead a0 "chartData").truthy then jsRead a0 "chartData" else Js.null
    (rt, cd)
  else (.str text, Js.null)

/-- The non-JSON fallback extraction (mcpClient.js 213-236): only for
`ask_agent` with a truthy `needChartData` argument, scan for a fenced json
block whose parse has a truthy `charts`/`data`/`rows`/`headers` field (a
parse failure or a nullish parse result is swallowed by the inner empty
catch), then for an embedded HTML table if still nothing was found. -/
def mcpTextExtract (env : McpEnv) (originalName : String) (args : Js) (text : String) : Js :=
  if originalName = "ask_agent" ∧ (jsGetOpt args "needChartData").truthy then
    let cd1 : Js :=
      match env.matchJsonBlock text with
      | some blockStr =>
        match env.parseJson blockStr with
        | some bd =>
          if bd.nullish then Js.null
          else if (jsRead bd "charts").truthy || (jsRead bd "data").truthy ||
              (jsRead bd "rows").truthy || (jsRead bd "headers").truthy then bd
          else Js.null
        | none => Js.null
      | none => Js.null
    match env.matchHtmlTable text with
    | some tbl =>
      if cd1.truthy then cd1
      else jobj [("html", .str tbl), ("type", .str "table")]
    | none => cd1
  else Js.null

/-- Embedding of `callMcpTool` (mcpClient.js 158-244). Every outcome is a plain result
object: unknown names and unconnected servers return failure objects, a
thrown SDK call is caught and converted, `isError` results carry their text
content, and successful results carry the (possibly extracted) text and any
structured chart data. -/
def callMcpTool (s : McpState) (env : McpEnv) (name : String) (args : Js) : Js :=
  match lookupReg s.registry name with
  | none => jobj [("error", .str ("Unknown MCP tool: " ++ name))]
  | some (serverName, originalName) =>
    if serverName ∈ s.clients then
      match env.callTool originalName args with
      | .error msg => jobj [("error", .str ("MCP tool error: " ++ msg))]
      | .ok result =>
        if result.isError then
          jobj [("error", .str (mcpJoinOr result.content "Unknown MCP tool error"))]
        else
          let text := mcpJoinOr result.content ""
          let (resultText, mcpChartData) :=
            match env.parseJson text with
            | some parsed => mcpParsedExtract text parsed
            | none => (.str text, mcpTextExtract env originalName args text)
          jobj [("success", .bool true), ("result", resultText),
                ("mcpChartData", mcpChartData)]
    else jobj [("error", .str ("MCP server \"" ++ serverName ++ "\" not connected"))]

/-! ## Built-in tool dispatch (`src/server/services/functionCalling.js` 115-316) -/

/-- The nine built-in tool names declared in `tools`
(functionCalling.js 5-113) and handled by the switch. -/
def builtinToolNames : List String :=
  ["show_map", "show_traffic", "search_places", "get_directions",
   "show_street_view", "get_user_location", "send_email",
   "search_documents", "generate_artifact"]

/-- The service collaborators of the built-in handlers (maps geocoding and
search, mail, document retrieval). A `.error` result models a rejected
promise / thrown exception, which the catch of the dispatcher converts into a
failure result carrying `error.message`. -/
structure BuiltinEnv where
  geocode : Js → Except String Js
  searchPlaces : Js → Js → Js → Except String Js
  getDirections : Js → Js → Js → Except String Js
  sendEmail : Js → Js → Js → Except String Js
  searchDocuments : Js → Except String Js

/-- Property access whose thrown `TypeError` carries a message (used where
the source dereferences possibly-absent nested objects). -/
def jsGetE (v : Js) (k : String) : Except String Js :=
  if v.nullish then .error ("Cannot read properties of " ++ v.display)
  else .ok (jsRead v k)

/-- Embedding of `p.rating >= args.minRating` under the numeric model: comparisons with a
non-number (`NaN` in JavaScript) are false. -/
def jsNumGe (a b : Js) : Bool :=
  match a, b with
  | .num x, .num y => decide (y ≤ x)
  | _, _ => false

/-- Embedding of `(a + b) / 2` of two coordinates (integer division stands in for float
average; no verified property reads the value). -/
def jsNumAvg (a b : Js) : Js :=
  match a, b with
  | .num x, .num y => .num ((x + y) / 2)
  | _, _ => .num 0

/-- Embedding of `args.radius ? Math.max(10, 14 - Math.floor(args.radius / 3)) : 13`
(functionCalling.js 149); a truthy non-number radius yields `NaN`, modelled
as 0. -/
def trafficZoom (radius : Js) : Js :=
  if radius.truthy then
    match radius with
    | .num r => .num (max 10 (14 - Int.fdiv r 3))
    | _ => .num 0
  else .num 13

/-- The price-level rendering of functionCalling.js 200: a dollar sign
repeated priceLevel times when truthy, the text N/A otherwise. -/
def priceLevelDollars (v : Js) : Js :=
  if v.truthy then
    match v with
    | .num n => .str (String.mk (List.replicate n.toNat '$'))
    | _ => .str ""
  else .str "N/A"

/-- A failure result object `{error: msg}`. -/
def jsErr (msg : String) : Js := jobj [("error", .str msg)]

/-- The per-place summary of `search_places` (functionCalling.js 196-202);
throws when the place is nullish. -/
def placeSummary (p : Js) : Except String Js :=
  if p.nullish then .error ("Cannot read properties of " ++ p.display)
  else .ok (jobj
    [("name", jsRead p "name"), ("rating", jsRead p "rating"),
     ("address", jsRead p "address"),
     ("priceLevel", priceLevelDollars (jsRead p "priceLevel")),
     ("openNow", jsRead p "openNow")])

/-- The per-place marker of `search_places` (functionCalling.js 178-192);
throws when the place is nullish. -/
def placeMarker (p : Js) (i : Nat) : Except String Js :=
  if p.nullish then .error ("Cannot read properties of " ++ p.display)
  else .ok (jobj
    [("position", jsRead p "location"), ("title", jsRead p "name"),
     ("label", .str (toString (i + 1))),
     ("info", jobj
       [("name", jsRead p "name"), ("rating", jsRead p "rating"),
        ("userRatingsTotal", jsRead p "userRatingsTotal"),
        ("address", jsRead p "address"), ("priceLevel", jsRead p "priceLevel"),
        ("openNow", jsRead p "openNow"), ("placeId", jsRead p "placeId"),
        ("photo", jsRead p "photo")])])

/-- Index-carrying map over the first elements of a list (`slice(0,10).map`). -/
def mapWithIdx (f : Js → Nat → Except String Js) : List Js → Nat → Except String (List Js)
  | [], _ => .ok []
  | p :: t, i => do
    let x ← f p i
    let rest ← mapWithIdx f t (i + 1)
    .ok (x :: rest)

/-- Fold a field list onto a base object, later fields overriding (object
spread). -/
def JsF.spreadOnto (acc : JsF) : JsF → JsF
  | .nil => acc
  | .cons k x t => JsF.spreadOnto (acc.setField k x) t

/-- Spread `{success: true, ...result}` (functionCalling.js 295-298): the
spread fields override the base; spreading a non-object contributes no
string-keyed fields of interest. -/
def jsSpreadSuccess (v : Js) : Js :=
  match v with
  | .obj fs => .obj (JsF.spreadOnto (.cons "success" (.bool true) .nil) fs)
  | _ => jobj [("success", .bool true)]

/-- The body of the `executeFunctionCall` switch (functionCalling.js
117-311), before the surrounding try/catch: a thrown exception is an
`Except.error` carrying `error.message`. -/
def executeFunctionCallBody (env : BuiltinEnv) (userLocation : Js)
    (name : String) (args : Js) : Except String Js :=
  if name = "show_map" then do
    let coords ← env.geocode (jsRead args "location")
    if ¬ coords.truthy then
      .ok (jsErr ("Could not find location: " ++ (jsRead args "location").display))
    else
      .ok (jobj
        [("success", .bool true),
         ("message", .str ("Showing map of " ++ (jsRead args "location").display)),
         ("mapData", jobj
           [("type", .str "map"), ("center", coords),
            ("zoom", jsOr (jsRead args "zoom") (.num 14)),
            ("markers", jarr [jobj
              [("position", coords), ("title", jsRead args "location")]])])])
  else if name = "show_traffic" then do
    let coords ← env.geocode (jsRead args "location")
    if ¬ coords.truthy then
      .ok (jsErr ("Could not find location: " ++ (jsRead args "location").display))
    else
      .ok (jobj
        [("success", .bool true),
         ("message", .str ("Showing traffic around " ++ (jsRead args "location").display)),
         ("mapData", jobj
           [("type", .str "traffic"), ("center", coords),
            ("zoom", trafficZoom (jsRead args "radius")),
            ("trafficEnabled", .bool true)])])
  else if name = "search_places" then do
    let locArg := jsRead args "location"
    let coordsLoc : Except String (Option (Js × Js)) :=
      if locArg.truthy then do
        let coords ← env.geocode locArg
        if ¬ coords.truthy then .ok none else .ok (some (coords, locArg))
      else if userLocation.truthy then
        .ok (some (jobj [("lat", jsRead userLocation "lat"),
                         ("lng", jsRead userLocation "lng")],
                   jsRead userLocation "description"))
      else .ok none
    match ← coordsLoc with
    | none =>
      if locArg.truthy then
        .ok (jsErr ("Could not find location: " ++ locArg.display))
      else
        .ok (jsErr "No location specified and user location unavailable. Please provide a location.")
    | some (coords, locShown) => do
      let places ← env.searchPlaces (jsRead args "query") coords (jsRead args "type")
      match places with
      | .arr xs =>
        let all := xs.toList
        let filtered ←
          if (jsRead args "minRating").truthy then
            all.foldrM (fun p acc => do
              if p.nullish then
                Except.error ("Cannot read properties of " ++ p.display)
              else if jsNumGe (jsRead p "rating") (jsRead args "minRating") then
                Except.ok (p :: acc)
              else Except.ok acc) []
          else Except.ok all
        let markers ← mapWithIdx placeMarker (filtered.take 10) 0
        let summaries ← (filtered.take 10).mapM placeSummary
        .ok (jobj
          [("success", .bool true), ("places", jarr summaries),
           ("message", .str ("Found " ++ toString filtered.length ++
             " places matching \"" ++ (jsRead args "query").display ++
             "\" near " ++ locShown.display)),
           ("mapData", jobj
             [("type", .str "places"), ("center", coords), ("zoom", .num 14),
              ("markers", jarr markers),
              ("places", jarr (filtered.take 10))])])
      | _ => .error "places.filter is not a function"
  else if name = "get_directions" then do
    let d ← env.getDirections (jsRead args "origin") (jsRead args "destination")
      (jsOr (jsRead args "mode") (.str "driving"))
    if ¬ d.truthy then
      .ok (jsErr ("Could not get directions from " ++ (jsRead args "origin").display ++
        " to " ++ (jsRead args "destination").display))
    else do
      let sl := jsRead d "startLocation"
      let el := jsRead d "endLocation"
      let slat ← jsGetE sl "lat"
      let elat ← jsGetE el "lat"
      let slng ← jsGetE sl "lng"
      let elng ← jsGetE el "lng"
      .ok (jobj
        [("success", .bool true),
         ("message", .str ("Directions from " ++ (jsRead args "origin").display ++
           " to " ++ (jsRead args "destination").display ++ ": " ++
           (jsRead d "distance").display ++ ", " ++ (jsRead d "duration").display)),
         ("distance", jsRead d "distance"), ("duration", jsRead d "duration"),
         ("steps", jsRead d "steps"),
         ("mapData", jobj
           [("type", .str "directions"), ("origin", sl), ("destination", el),
            ("center", jobj [("lat", jsNumAvg slat elat), ("lng", jsNumAvg slng elng)]),
            ("zoom", .num 12), ("polyline", jsRead d "polyline"),
            ("markers", jarr
              [jobj [("position", sl), ("title", jsRead args "origin"), ("label", .str "A")],
               jobj [("position", el), ("title", jsRead args "destination"), ("label", .str "B")]])])])
  else if name = "show_street_view" then do
    let coords ← env.geocode (jsRead args "location")
    if ¬ coords.truthy then
      .ok (jsErr ("Could not find location: " ++ (jsRead args "location").display))
    else
      .ok (jobj
        [("success", .bool true),
         ("message", .str ("Showing street view of " ++ (jsRead args "location").display)),
         ("mapData", jobj
           [("type", .str "streetview"), ("position", coords),
            ("heading", .num 0), ("pitch", .num 0)])])
  else if name = "get_user_location" then
    if ¬ userLocation.truthy then
      .ok (jobj [("success", .bool false),
        ("message", .str "Unable to determine user location. Location services unavailable.")])
    else
      .ok (jobj
        [("success", .bool true),
         ("message", .str ("User is located near " ++
           (jsRead userLocation "description").display)),
         ("location", userLocation),
         ("mapData", jobj
           [("type", .str "map"),
            ("center", jobj [("lat", jsRead userLocation "lat"),
                             ("lng", jsRead userLocation "lng")]),
            ("zoom", .num 13),
            ("markers", jarr [jobj
              [("position", jobj [("lat", jsRead userLocation "lat"),
                                  ("lng", jsRead userLocation "lng")]),
               ("title", .str ("Your location: " ++
                 (jsRead userLocation "description").display))]])])])
  else if name = "send_email" then
    env.sendEmail (jsRead args "to") (jsRead args "subject") (jsRead args "body")
  else if name = "search_documents" then do
    let result ← env.searchDocuments (jsRead args "query")
    .ok (jsSpreadSuccess result)
  else if name = "generate_artifact" then
    .ok (jobj
      [("success", .bool true),
       ("message", .str ("Generated artifact: " ++ (jsRead args "title").display)),
       ("artifactData", jobj [("title", jsRead args "title"),
                              ("html", jsRead args "html")])])
  else
    .ok (jsErr ("Unknown function: " ++ name))

/-- Embedding of `executeFunctionCall` (functionCalling.js 115-316): the switch body
wrapped in the try/catch that converts any thrown exception into
`{error: error.message}` — the dispatcher never throws. -/
def executeFunctionCall (env : BuiltinEnv) (userLocation : Js)
    (name : String) (args : Js) : Js :=
  match executeFunctionCallBody env userLocation name args with
  | .ok r => r
  | .error msg => jsErr msg

/-! ## Artifact classification (`src/server/services/gemini.js` 162-260) -/

/-- The split of toolName on a double underscore (gemini.js 164), on a
character list: non-overlapping, left to right. -/
def splitUU : List Char → List Char → List (List Char)
  | '_' :: '_' :: t, acc => acc.reverse :: splitUU t []
  | c :: t, acc => splitUU t (c :: acc)
  | [], acc => [acc.reverse]

/-- The last segment of the split tool name (gemini.js 164-165): the label
used in artifact titles. -/
def mcpLabel (toolName : String) : String :=
  match (splitUU toolName.toList []).getLast? with
  | some cs => String.mk cs
  | none => ""

/-- The chart HTML template (gemini.js 215-229) around the displayed title
and the serialized Chart.js config. -/
def chartHtml (title : Js) (cfg : Js) : String :=
  "<!DOCTYPE html><html><head><meta charset=\"UTF-8\">\n<style>*\x7bmargin:0;padding:0;box-sizing:border-box\x7dbody\x7bbackground:#1a1a2e;color:#fff;font-family:system-ui,sans-serif;padding:20px;height:100vh;display:flex;flex-direction:column;gap:12px\x7dh2\x7bfont-size:13px;color:rgba(255,255,255,0.6);text-transform:uppercase;letter-spacing:.05em\x7d.chart-wrap\x7bflex:1;position:relative\x7d</style>\n</head><body>\n<h2>" ++
  title.display ++
  "</h2>\n<div class=\"chart-wrap\"><canvas id=\"c\"></canvas></div>\n<script src=\"https://cdn.jsdelivr.net/npm/chart.js\"></script>\n<script>\nChart.defaults.color=\x27rgba(255,255,255,0.65)\x27;\nChart.defaults.borderColor=\x27rgba(255,255,255,0.08)\x27;\nconst cfg=" ++
  (jsonStringify cfg).getD "undefined" ++
  ";\nif(!cfg.options.plugins)cfg.options.plugins=\x7b\x7d;\ncfg.options.plugins.legend=\x7blabels:\x7bcolor:\x27rgba(255,255,255,0.65)\x27\x7d\x7d;\nif(cfg.options.scales)\x7bObject.values(cfg.options.scales).forEach(s=>\x7bs.ticks=\x7bcolor:\x27rgba(255,255,255,0.55)\x27\x7d;s.grid=\x7bcolor:\x27rgba(255,255,255,0.07)\x27\x7d;\x7d);\x7d\nnew Chart(document.getElementById(\x27c\x27),cfg);\n</script></body></html>"

/-- The table HTML template (gemini.js 247-249) around the built head and
body rows. -/
def tableHtml (thead tbody : String) : String :=
  "<!DOCTYPE html><html><head><meta charset=\"UTF-8\">\n<style>*\x7bmargin:0;padding:0;box-sizing:border-box\x7dbody\x7bbackground:#1a1a2e;color:#fff;font-family:system-ui,sans-serif;padding:20px;overflow:auto\x7dtable\x7bwidth:100%;border-collapse:collapse;font-size:13px\x7dth\x7bbackground:rgba(255,255,255,0.08);color:rgba(255,255,255,0.8);padding:10px 12px;text-align:left;font-weight:600;border-bottom:1px solid rgba(255,255,255,0.12)\x7dtd\x7bpadding:9px 12px;border-bottom:1px solid rgba(255,255,255,0.06);color:rgba(255,255,255,0.85)\x7dtr:hover td\x7bbackground:rgba(255,255,255,0.04)\x7d</style>\n</head><body><table><thead>" ++
  thead ++ "</thead><tbody>" ++ tbody ++ "</tbody></table></body></html>"

/-- The pretty-print fallback HTML template (gemini.js 256-258) around the
serialized raw data. -/
def jsonHtml (chartData : Js) : String :=
  "<!DOCTYPE html><html><head><meta charset=\"UTF-8\">\n<style>body\x7bbackground:#1a1a2e;color:#a8d8a8;font-family:monospace;padding:20px;font-size:12px;white-space:pre-wrap;overflow:auto\x7d</style>\n</head><body>" ++
  (jsonStringify chartData).getD "undefined" ++ "</body></html>"

/-- Matcher 1 (gemini.js 174-202), the multi-chart/grid container shape
`{charts: [...]}`: a grid first chart yields a grid artifact, a chart-typed
(or `data`-bearing) first chart yields a chart artifact, any other first
chart falls through to the next matcher (the source has no return on that
path). Reading `.type` off a nullish first element throws. -/
def mcpMatcherCharts (label : String) (chartData : Js) : Except Unit (Option Js) :=
  match jsGetOpt chartData "charts" with
  | .arr (.cons firstChart rest) =>
    let title := label ++ " Analysis"
    match jsGet firstChart "type" with
    | .error e => .error e
    | .ok ft =>
      if ft.isStr "grid" then
        .ok (some (jobj
          [("title", .str title), ("type", .str "grid"),
           ("gridData", firstChart),
           ("columnFormats", jsOr (jsRead chartData "columnFormats") (jobj []))]))
      else if ft.isStr "chart" || (jsRead firstChart "data").truthy then
        let chartType := jsOr (jsGetOpt (jsRead firstChart "option") "chartType") (.str "line")
        .ok (some (jobj
          [("title", .str title), ("type", .str "chart"),
           ("chartData", .arr (.cons firstChart rest)), ("chartType", chartType)]))
      else .ok none
  | _ => .ok none

/-- Embedding of `delete cfg.options.plugins.title` (gemini.js 211), performed only when
the guarding optional chain was truthy (so options and plugins are
objects). -/
def deleteOptionsPluginsTitle (cfg : Js) : Js :=
  objSet cfg "options"
    (objSet (jsRead cfg "options") "plugins"
      (objDel (jsRead (jsRead cfg "options") "plugins") "title"))

/-- Matcher 2 (gemini.js 204-231), the single Chart.js configuration shape
(truthy `type` plus a `data.datasets` array): clone the config, strip its
title, force responsive options, and emit a self-contained chart document.
In strict mode the property writes `cfg.options.responsive = true` throw a
`TypeError` when `options` survived as a truthy primitive; on an array they
succeed but are invisible to `JSON.stringify`. -/
def mcpMatcherChartJs (label : String) (chartData : Js) : Except Unit (Option Js) :=
  if (jsGetOpt chartData "type").truthy ∧
      (jsGetOpt (jsGetOpt chartData "data") "datasets").isArr then
    let title := jsOr
      (jsGetOpt (jsGetOpt (jsGetOpt (jsGetOpt chartData "options") "plugins") "title") "text")
      (.str (label ++ " Chart"))
    let cfg := jsonClone chartData
    let cfg :=
      if (jsGetOpt (jsGetOpt (jsGetOpt cfg "options") "plugins") "title").truthy
      then deleteOptionsPluginsTitle cfg else cfg
    let cfg := if ¬ (jsRead cfg "options").truthy then objSet cfg "options" (jobj []) else cfg
    match jsRead cfg "options" with
    | .obj fs =>
      let cfg := objSet cfg "options"
        (Js.obj ((fs.setField "responsive" (.bool true)).setField "maintainAspectRatio" (.bool false)))
      .ok (some (jobj
        [("title", title), ("html", .str (chartHtml title cfg)), ("type", .str "html")]))
    | .arr _ =>
      .ok (some (jobj
        [("title", title), ("html", .str (chartHtml title cfg)), ("type", .str "html")]))
    | _ => .error ()
  else .ok none

/-- Embedding of `columns.map(c => c.header || c.label || c.key || c)` (gemini.js 234):
throws on a nullish element. -/
def mapHeaderCols : JsL → Except Unit JsL
  | .nil => .ok .nil
  | .cons c t =>
    if c.nullish then .error ()
    else
      match mapHeaderCols t with
      | .error e => .error e
      | .ok rest => .ok (.cons (jsOr (jsRead c "header")
          (jsOr (jsRead c "label") (jsOr (jsRead c "key") c))) rest)

/-- One table row of matcher 3 (gemini.js 245): array rows are used as-is,
other rows go through `Object.values` (throwing on nullish), and each cell
renders the value coalesced to the empty string inside a td element. -/
def tableRow (r : Js) : Except Unit String :=
  match (match r with | .arr cs => Except.ok cs.toList | _ => jsObjectValues r) with
  | .error e => .error e
  | .ok cells =>
    .ok ("<tr>" ++ String.join (cells.map fun v =>
      "<td>" ++ (jsCoalesce v (.str "")).display ++ "</td>") ++ "</tr>")

/-- The row mapping and empty-separator join of gemini.js 244-246: render
each row, concatenated; a thrown row aborts. -/
def renderRows : JsL → Except Unit String
  | .nil => .ok ""
  | .cons r t =>
    match tableRow r with
    | .error e => .error e
    | .ok s =>
      match renderRows t with
      | .error e => .error e
      | .ok rest => .ok (s ++ rest)

/-- Matcher 3 (gemini.js 233-251), the generic tabular shape
(`headers`/`columns` and `rows`/`data`): headers come from a truthy
`headers` value or from mapping `columns`; a truthy non-array `headers` (or
a non-nullish non-array `columns`) throws when mapped. -/
def mcpMatcherTable (label : String) (chartData : Js) : Except Unit (Option Js) :=
  match
    (if (jsGetOpt chartData "headers").truthy then Except.ok (jsGetOpt chartData "headers")
     else
       match jsGetOpt chartData "columns" with
       | .null => Except.ok Js.null
       | .undefined => Except.ok Js.null
       | .arr xs =>
         match mapHeaderCols xs with
         | .error e => .error e
         | .ok mapped => .ok (Js.arr mapped)
       | _ => Except.error ()) with
  | .error e => .error e
  | .ok headers =>
    let rows := jsOr (jsGetOpt chartData "rows") (jsOr (jsGetOpt chartData "data") Js.null)
    if headers.truthy ∨ rows.truthy then
      match
        (if headers.truthy then
          match headers with
          | .arr xs => Except.ok ("<tr>" ++
              String.join ((JsL.toList xs).map fun h => "<th>" ++ h.display ++ "</th>") ++ "</tr>")
          | _ => Except.error ()
        else Except.ok "") with
      | .error e => .error e
      | .ok thead =>
        match (match rows with | .arr rs => renderRows rs | _ => Except.ok "") with
        | .error e => .error e
        | .ok tbody =>
          .ok (some (jobj
            [("title", .str (label ++ " Data")), ("html", .str (tableHtml thead tbody)),
             ("type", .str "html")]))
    else .ok none

/-- Matcher 4 (gemini.js 253-259), the unconditional pretty-print fallback. -/
def mcpFallbackArtifact (label : String) (chartData : Js) : Js :=
  jobj [("title", .str (label ++ " Data")),
        ("html", .str (jsonHtml chartData)), ("type", .str "html")]

/-- Embedding of `buildMcpDataArtifact` (gemini.js 162-260): the prioritized matcher
chain over raw structured data — multi-chart/grid container, then single
chart configuration, then generic tabular shape, then pretty-printed
fallback; the first matching branch returns. An `Except.error` is a thrown
`TypeError` escaping the function (it has no catch of its own). -/
def buildMcpDataArtifact (toolName : String) (chartData : Js) : Except Unit Js :=
  let label := mcpLabel toolName
  match mcpMatcherCharts label chartData with
  | .error e => .error e
  | .ok (some a) => .ok a
  | .ok none =>
    match mcpMatcherChartJs label chartData with
    | .error e => .error e
    | .ok (some a) => .ok a
    | .ok none =>
      match mcpMatcherTable label chartData with
      | .error e => .error e
      | .ok (some a) => .ok a
      | .ok none => .ok (mcpFallbackArtifact label chartData)

/-! ## The orchestration loop (`src/server/services/gemini.js` 296-474)

The Gemini chat session is an oracle `model : Nat → ModelResp` giving the
response to the n-th `sendMessage` on the session (the initial user message,
each batch of function responses, each reflexion corrective message, and the
final summary request all advance the same counter). Tool dispatch is an
oracle `exec : Nat → FnCall → Js` giving the result object of the n-th
dispatched call — `runReActLoop` routes a call to `callMcpTool` or
`executeFunctionCall`, both of which always return plain result objects (as
established for the embedded dispatchers), so the oracle returns `Js`
rather than `Except`. The side-effect-only progress emitter `onStep` and
console logging are omitted: they do not influence control flow or the
returned result. -/

/-- A function call requested by the model (`extractFunctionCalls`
output). -/
structure FnCall where
  name : String
  args : Js

/-- One model response: its text and its requested function calls (the
empty list models `extractFunctionCalls` returning null). -/
structure ModelResp where
  text : String
  calls : List FnCall

/-- One grounding chunk of `groundingMetadata.groundingChunks`; `web` is
the optional `{title, uri}` web payload. -/
structure WebChunk where
  web : Option (String × String)

/-- The response of the grounded `generateContent` call. -/
structure GroundResp where
  text : String
  groundingChunks : Option (List WebChunk)

/-- The oracles of one `chat` request. -/
structure ChatEnv where
  model : Nat → ModelResp
  exec : Nat → FnCall → Js
  ground : Except Unit GroundResp

/-- Embedding of `extractGroundingResults` (gemini.js 144-160): the web chunks mapped to
`{title, link, snippet, displayLink}` citation objects, or null when the
metadata or every chunk is missing. -/
def extractGroundingResults (g : GroundResp) : Js :=
  match g.groundingChunks with
  | none => Js.null
  | some l =>
    let chunks := l.filterMap fun c => c.web.map fun w =>
      jobj [("title", .str w.1), ("link", .str w.2),
            ("snippet", .str ""), ("displayLink", .str w.1)]
    if chunks.isEmpty then Js.null else jarr chunks

/-- The request-scoped mutable state threaded through `runReActLoop` and
`chat`: the session message counter, the dispatched-call counter, the shared
`allMapData` accumulator, the shared `artifactDataRef`, and a ghost log of
every dispatched call with its result (observation only — nothing reads
it). -/
structure LoopSt where
  msgIdx : Nat
  callIdx : Nat
  allMapData : List (String × Js)
  artifactRef : Js
  execLog : List (FnCall × Js)

/-- Processing of one function call inside the dispatch round
(gemini.js 311-354): dispatch, count success when `error` is falsy, append
a labeled map payload when present, overwrite the artifact ref with any
ready-made `artifactData`, and otherwise build an artifact from
`mcpChartData` only when no artifact is set yet (`buildMcpDataArtifact` may
throw, which would escape `chat` — hence the `Except`). -/
def logCall (call : FnCall) (r : Js) (st : LoopSt) : LoopSt :=
  { st with callIdx := st.callIdx + 1, execLog := st.execLog ++ [(call, r)] }

/-- gemini.js 324-326: append the labeled map payload when present. -/
def applyMapData (call : FnCall) (r : Js) (st : LoopSt) : LoopSt :=
  if (jsRead r "mapData").truthy then
    { st with allMapData := st.allMapData ++
        [(getLabelForFunction call.name call.args, jsRead r "mapData")] }
  else st

/-- gemini.js 327-329: a ready-made artifact overwrites the ref
unconditionally. -/
def applyReadyArtifact (r : Js) (st : LoopSt) : LoopSt :=
  if (jsRead r "artifactData").truthy then
    { st with artifactRef := jsRead r "artifactData" }
  else st

/-- gemini.js 330-340: build an artifact from MCP chart data only when none
is set yet; the builder may throw. -/
def applyMcpArtifact (call : FnCall) (r : Js) (st : LoopSt) : Except Unit LoopSt :=
  if (jsRead r "mcpChartData").truthy ∧ ¬ st.artifactRef.truthy then
    match buildMcpDataArtifact call.name (jsRead r "mcpChartData") with
    | .error e => .error e
    | .ok artifact => .ok { st with artifactRef := artifact }
  else .ok st

def processCall (env : ChatEnv) (st : LoopSt) (succ : Nat) (call : FnCall) :
    Except Unit (LoopSt × Nat) :=
  let r := env.exec st.callIdx call
  let succ' := if (jsRead r "error").truthy then succ else succ + 1
  match applyMcpArtifact call r (applyReadyArtifact r (applyMapData call r (logCall call r st))) with
  | .error e => .error e
  | .ok st' => .ok (st', succ')

/-- The calls of one dispatch round, processed sequentially in call order
(gemini.js 311: `for (const call of functionCalls)`). -/
def processCalls (env : ChatEnv) : List FnCall → LoopSt → Nat → Except Unit (LoopSt × Nat)
  | [], st, succ => .ok (st, succ)
  | c :: t, st, succ =>
    match processCall env st succ c with
    | .error e => .error e
    | .ok (st', succ') => processCalls env t st' succ'

/-- The result of one `runReActLoop` attempt: the final model response, the
number of dispatch rounds, the number of calls that completed without
error, and the threaded state. -/
structure LoopOut where
  resp : ModelResp
  steps : Nat
  success : Nat
  st : LoopSt

/-- The while loop of `runReActLoop` (gemini.js 304-360): continue while
the response requests calls and the step count is below `maxSteps`;
`remaining` is the unspent part of the budget. -/
def reactAux (env : ChatEnv) : Nat → ModelResp → Nat → Nat → LoopSt → Except Unit LoopOut
  | remaining, resp, steps, succ, st =>
    match resp.calls with
    | [] => .ok ⟨resp, steps, succ, st⟩
    | c :: t =>
      match remaining with
      | 0 => .ok ⟨resp, steps, succ, st⟩
      | rem + 1 =>
        match processCalls env (c :: t) st succ with
        | .error e => .error e
        | .ok (st', succ') =>
          reactAux env rem (env.model st'.msgIdx) (steps + 1) succ'
            { st' with msgIdx := st'.msgIdx + 1 }

/-- Embedding of `runReActLoop` (gemini.js 296-367): send the initial message, then run
the dispatch loop with the full `maxSteps` budget. -/
def runReActLoop (env : ChatEnv) (maxSteps : Nat) (st : LoopSt) : Except Unit LoopOut :=
  let resp := env.model st.msgIdx
  reactAux env maxSteps resp 0 0 { st with msgIdx := st.msgIdx + 1 }

/-- Ghost record of one attempt (the initial run or one reflexion retry). -/
structure AttemptInfo where
  steps : Nat
  success : Nat
  text : String

/-- The reflexion while loop of `chat` (gemini.js 405-420): retry while
budget remains, the INITIAL attempt had zero successful calls (`success1`
is captured once and the `successfulCalls` of the retry is discarded by the
destructuring on line 414), and the current reply text is unsatisfactory.
Returns the retry attempt records, the final response and state, and the
steps added. -/
def retryLoop (env : ChatEnv) (maxSteps success1 : Nat) :
    Nat → ModelResp → LoopSt → Except Unit (List AttemptInfo × ModelResp × LoopSt × Nat)
  | 0, resp, st => .ok ([], resp, st, 0)
  | rl + 1, resp, st =>
    if success1 = 0 ∧ isUnsatisfactoryResponse resp.text then
      match runReActLoop env maxSteps st with
      | .error e => .error e
      | .ok out =>
        match retryLoop env maxSteps success1 rl out.resp out.st with
        | .error e => .error e
        | .ok (rest, resp', st', tot) =>
          .ok (⟨out.steps, out.success, out.resp.text⟩ :: rest, resp', st', out.steps + tot)
    else .ok ([], resp, st, 0)

/-- gemini.js 423: web search is enabled when the enable list is missing or
not an array (modelled as `none`), or contains the web-search tool name. -/
def webSearchEnabled (enabledTools : Option (List String)) : Bool :=
  match enabledTools with
  | none => true
  | some l => l.contains "web_search"

/-- The structured result of one `chat` request, together with ghost
observation fields (attempt records, the accumulated map-data list, the
dispatched-call log, and the branch flags) that record what happened
without influencing it. -/
structure ChatOut where
  reply : String
  mapData : Js
  searchResults : Js
  artifactData : Js
  attempts : List AttemptInfo
  totalSteps : Nat
  groundingRan : Bool
  preSummaryReply : String
  summaryRan : Bool
  summaryText : String
  allMapData : List (String × Js)
  execLog : List (FnCall × Js)

/-- The pure tail of `chat` (gemini.js 422-473): the grounding fallback
(guarded by zero total steps and the web-search capability; its failure
keeps the prior response), the ordered map-data merge, and the empty-reply
summary fallback (guarded by empty reply text and a positive total step
count). -/
def chatAssemble (env : ChatEnv) (enabledTools : Option (List String))
    (a0 : LoopOut) (retries : List AttemptInfo) (resp : ModelResp)
    (st : LoopSt) (retSteps : Nat) : ChatOut :=
  let totalSteps := a0.steps + retSteps
  let groundingRan := totalSteps == 0 && webSearchEnabled enabledTools
  let grounded : ModelResp × Js :=
    if groundingRan then
      match env.ground with
      | .ok g => (({ text := g.text, calls := [] } : ModelResp), extractGroundingResults g)
      | .error _ => (resp, Js.null)
    else (resp, Js.null)
  let mapData :=
    match st.allMapData with
    | [] => Js.null
    | [single] => single.2
    | entries => jobj [("type", .str "multi"),
        ("steps", jarr (entries.map fun e =>
          jobj [("label", .str e.1), ("mapData", e.2)]))]
  let preSummaryReply := grounded.1.text
  let summaryRan := preSummaryReply == "" && totalSteps != 0
  let replied : String × String :=
    if summaryRan then ((env.model st.msgIdx).text, (env.model st.msgIdx).text)
    else (preSummaryReply, "")
  { reply := replied.1, mapData, searchResults := grounded.2,
    artifactData := st.artifactRef,
    attempts := ⟨a0.steps, a0.success, a0.resp.text⟩ :: retries,
    totalSteps, groundingRan, preSummaryReply, summaryRan,
    summaryText := replied.2,
    allMapData := st.allMapData, execLog := st.execLog }

/-- Embedding of `chat` (gemini.js 369-474): initial ReAct attempt, reflexion retries
(the retry condition reads `success1`, the success count of the initial attempt,
count), then the pure grounding/merge/summary tail. -/
def chat (env : ChatEnv) (maxSteps maxRetries : Nat)
    (enabledTools : Option (List String)) : Except Unit ChatOut :=
  match runReActLoop env maxSteps ⟨0, 0, [], Js.null, []⟩ with
  | .error e => .error e
  | .ok a0 =>
    match retryLoop env maxSteps a0.success maxRetries a0.resp a0.st with
    | .error e => .error e
    | .ok (retries, resp, st, retSteps) =>
      .ok (chatAssemble env enabledTools a0 retries resp st retSteps)

/-! ## Auxiliary predicates and concrete instances used by the theorems -/

/-- Every element of a JavaScript array is non-nullish. -/
def nonNullishElems : JsL → Bool
  | .nil => true
  | .cons x t => !x.nullish && nonNullishElems t

/-- A non-empty `charts` array must not start with a nullish entry (reading
`.type` off it would throw). -/
def safeCharts (cd : Js) : Bool :=
  match jsGetOpt cd "charts" with
  | .arr (.cons x _) => !x.nullish
  | _ => true

/-- A truthy `options` must not be a primitive (the strict-mode property
writes of matcher 2 would throw on it). -/
def safeOptions (cd : Js) : Bool :=
  match jsGetOpt cd "options" with
  | .num n => n == 0
  | .str s => s == ""
  | .bool b => !b
  | _ => true

/-- A truthy `headers` must be an array (`headers.map` would throw
otherwise). -/
def safeHeaders (cd : Js) : Bool :=
  match jsGetOpt cd "headers" with
  | .arr _ => true
  | h => !h.truthy

/-- Requires `columns` to be nullish or an array of non-nullish entries
(`columns.map` and the `c.header` reads would throw otherwise). -/
def safeColumns (cd : Js) : Bool :=
  match jsGetOpt cd "columns" with
  | .null => true
  | .undefined => true
  | .arr xs => nonNullishElems xs
  | _ => false

/-- An array of rows must contain no nullish row (`Object.values` would
throw on it). -/
def safeRowsVal (v : Js) : Bool :=
  match v with
  | .arr xs => nonNullishElems xs
  | _ => true

mutual
/-- Does the value contain no `undefined` anywhere? Data that came through
`JSON.parse` (as all MCP chart data does) satisfies this, and on such data
the `JSON.parse(JSON.stringify(...))` clone is the identity. -/
def noUndefined : Js → Bool
  | .undefined => false
  | .arr xs => noUndefinedL xs
  | .obj fs => noUndefinedF fs
  | _ => true
/-- Extension of `noUndefined` over array elements. -/
def noUndefinedL : JsL → Bool
  | .nil => true
  | .cons x t => noUndefined x && noUndefinedL t
/-- Extension of `noUndefined` over object fields. -/
def noUndefinedF : JsF → Bool
  | .nil => true
  | .cons _ v t => noUndefined v && noUndefinedF t
end

/-- Well-formedness of raw structured data sufficient for the artifact
classifier not to throw: `JSON.parse`-shaped (no `undefined` inside), plus
the amendment C7 is proved under this predicate, and its counterexample
violates `safeCharts`. -/
def wfChartData (cd : Js) : Bool :=
  noUndefined cd && safeCharts cd && safeOptions cd && safeHeaders cd &&
    safeColumns cd && safeRowsVal (jsGetOpt cd "rows") &&
    safeRowsVal (jsGetOpt cd "data")

/-- Is the value an object or an array (the shapes on which the strict-mode
property writes of matcher 2 do not throw)? -/
def objOrArr : Js → Bool
  | .obj _ => true
  | .arr _ => true
  | _ => false

/-- The labeled map payload a dispatched call contributes to `allMapData`,
if any (gemini.js 324-326). -/
def mapEntryOf (p : FnCall × Js) : Option (String × Js) :=
  if (jsRead p.2 "mapData").truthy then
    some (getLabelForFunction p.1.name p.1.args, jsRead p.2 "mapData")
  else none

/-- The ready-made artifact a dispatched call contributes, if any
(gemini.js 327-329). -/
def readyOf (p : FnCall × Js) : Option Js :=
  if (jsRead p.2 "artifactData").truthy then some (jsRead p.2 "artifactData")
  else none

/-- The registry invariant of claim C10: every registered tool points to a
server with a live client entry. -/
def McpInv (s : McpState) : Prop :=
  ∀ e ∈ s.registry, e.2.1 ∈ s.clients

/-- The loop-state invariant behind C4: whenever some dispatched call has
returned a ready-made artifact, the artifact ref holds the last such one
(and is therefore truthy, which is what keeps structured-data artifacts
from overwriting it). -/
def ArtInv (st : LoopSt) : Prop :=
  ∀ a, (st.execLog.filterMap readyOf).getLast? = some a →
    st.artifactRef = a ∧ st.artifactRef.truthy = true

/-- The loop-state invariant behind C5: `allMapData` is exactly the ordered
sequence of labeled payloads of the dispatched calls. -/
def MapInv (st : LoopSt) : Prop :=
  st.allMapData = st.execLog.filterMap mapEntryOf

/-- A sample run for the C10 witness: one server from the startup path, one
connected dynamically, the first then disconnected. -/
def mcpDemoOps : List McpOp :=
  [.bootOk "alpha" ["t1"], .connectOk "beta" ["t2"], .disconnect "alpha"]

/-- Service oracles that always resolve (C8 witness). -/
def trivialBuiltinEnv : BuiltinEnv :=
  ⟨fun _ => .ok Js.null, fun _ _ _ => .ok Js.null, fun _ _ _ => .ok Js.null,
   fun _ _ _ => .ok Js.null, fun _ => .ok Js.null⟩

/-- An MCP environment whose SDK call always throws (C8 witness). -/
def failingMcpEnv : McpEnv :=
  ⟨fun _ _ => .error "boom", fun _ => none, fun _ => none, fun _ => none⟩

/-- A registry state with one connected server and one registered tool
(C8 witness). -/
def oneToolMcpState : McpState := ⟨["srv"], [("srv__t", "srv", "t")]⟩

/-- A confident, long reply (longer than 60 characters and free of
low-confidence phrases). -/
def confidentText : String :=
  "The Eiffel Tower is 330 metres tall and was completed in the year 1889 for the Paris world fair."

/-- A fallback `ChatOut` used only to destructure concrete runs. -/
def emptyChatOut : ChatOut :=
  ⟨"", Js.null, Js.null, Js.null, [], 0, false, "", false, "", [], []⟩

/-- C1 counterexample oracle: the initial attempt makes no calls and
answers weakly; the first retry performs one successful tool call but still
answers weakly; the model then answers weakly again. -/
def c1xEnv : ChatEnv :=
  ⟨fun n => match n with
    | 0 => ⟨"idk", []⟩
    | 1 => ⟨"", [⟨"some_tool", Js.null⟩]⟩
    | 2 => ⟨"ok", []⟩
    | _ => ⟨"done", []⟩,
   fun _ _ => jobj [("success", .bool true)],
   .error ()⟩

/-- The output of the C1 counterexample run. -/
def c1xOut : ChatOut := ((chat c1xEnv 5 2 none).toOption).getD emptyChatOut

/-- C1 witness oracle: a confident long answer with no tool calls. -/
def c1DemoEnv : ChatEnv :=
  ⟨fun _ => ⟨confidentText, []⟩, fun _ _ => Js.null, .error ()⟩

/-- The output of the C1 witness run. -/
def c1DemoOut : ChatOut := ((chat c1DemoEnv 2 2 none).toOption).getD emptyChatOut

/-- C2 witness oracle: no tool calls, so the grounding fallback triggers;
the grounded call succeeds with no web chunks. -/
def c2DemoEnv : ChatEnv :=
  ⟨fun _ => ⟨confidentText, []⟩, fun _ _ => Js.null,
   .ok ⟨"grounded answer", none⟩⟩

/-- The output of the C2 witness run. -/
def c2DemoOut : ChatOut := ((chat c2DemoEnv 3 1 none).toOption).getD emptyChatOut

/-- C3 witness oracle: the model keeps requesting one failing call, so both
the initial attempt and the single retry run to the full step budget. -/
def c3DemoEnv : ChatEnv :=
  ⟨fun _ => ⟨"x", [⟨"some_tool", Js.null⟩]⟩,
   fun _ _ => jobj [("error", .str "nope")],
   .error ()⟩

/-- The output of the C3 witness run (`maxSteps = 2`, `maxRetries = 1`). -/
def c3DemoOut : ChatOut := ((chat c3DemoEnv 2 1 none).toOption).getD emptyChatOut

/-- The two ready-made artifacts of the C4 counterexample. -/
def c4ArtifactOne : Js := jobj [("title", .str "one"), ("html", .str "<p>1</p>")]

/-- The second ready-made artifact of the C4 counterexample. -/
def c4ArtifactTwo : Js := jobj [("title", .str "two"), ("html", .str "<p>2</p>")]

/-- C4 counterexample oracle: one dispatch round with two calls, each
returning a ready-made artifact. -/
def c4xEnv : ChatEnv :=
  ⟨fun n => match n with
    | 0 => ⟨"", [⟨"generate_artifact", Js.null⟩, ⟨"generate_artifact", Js.null⟩]⟩
    | _ => ⟨confidentText, []⟩,
   fun i _ => if i == 0 then jobj [("success", .bool true), ("artifactData", c4ArtifactOne)]
              else jobj [("success", .bool true), ("artifactData", c4ArtifactTwo)],
   .error ()⟩

/-- The output of the C4 counterexample run. -/
def c4xOut : ChatOut := ((chat c4xEnv 5 2 none).toOption).getD emptyChatOut

/-- C5 witness oracle: one dispatch round with two calls, each returning a
map payload. -/
def c5DemoEnv : ChatEnv :=
  ⟨fun n => match n with
    | 0 => ⟨"", [⟨"show_map", jobj [("location", .str "Paris")]⟩,
                 ⟨"search_places", jobj [("query", .str "cafes")]⟩]⟩
    | _ => ⟨confidentText, []⟩,
   fun i _ => if i == 0 then jobj [("success", .bool true), ("mapData", .str "m1")]
              else jobj [("success", .bool true), ("mapData", .str "m2")],
   .error ()⟩

/-- The output of the C5 witness run. -/
def c5DemoOut : ChatOut := ((chat c5DemoEnv 5 0 none).toOption).getD emptyChatOut

/-- C6 counterexample oracle: one dispatched call that fails, then an empty
reply, so the summary fallback fires with zero successful calls. -/
def c6xEnv : ChatEnv :=
  ⟨fun n => match n with
    | 0 => ⟨"", [⟨"some_tool", Js.null⟩]⟩
    | 1 => ⟨"", []⟩
    | _ => ⟨"Summary of the failed attempt.", []⟩,
   fun _ _ => jobj [("error", .str "boom")],
   .error ()⟩

/-- The output of the C6 counterexample run (`maxRetries = 0`). -/
def c6xOut : ChatOut := ((chat c6xEnv 5 0 none).toOption).getD emptyChatOut

/-- C6 witness oracle: one successful call, an empty reply, and a summary
response. -/
def c6DemoEnv : ChatEnv :=
  ⟨fun n => match n with
    | 0 => ⟨"", [⟨"some_tool", Js.null⟩]⟩
    | 1 => ⟨"", []⟩
    | _ => ⟨"Here is a summary of what was found.", []⟩,
   fun _ _ => jobj [("success", .bool true)],
   .error ()⟩

/-- The output of the C6 witness run (`maxRetries = 0`). -/
def c6DemoOut : ChatOut := ((chat c6DemoEnv 5 0 none).toOption).getD emptyChatOut

/-- Well-formed tabular data for the C7 witness. -/
def c7DemoData : Js :=
  jobj [("headers", jarr [.str "product", .str "price"]),
        ("rows", jarr [jarr [.str "widget", .num 3]])]

/-! ## Theorems -/

theorem mapAllowedId (m : List Char) (h : ∀ c ∈ m, allowedToolChar c = true) :
    (m.map fun c => if allowedToolChar c then c else '_') = m := by
  induction m with
  | nil => rfl
  | cons c t ih =>
    simp only [List.map_cons]
    rw [if_pos (h c (by simp)), ih (fun d hd => h d (by simp [hd]))]

theorem sanitizeCharsAllowed (l : List Char) :
    ∀ c ∈ sanitizeChars l, allowedToolChar c = true := by
  intro c hc
  unfold sanitizeChars at hc
  have hc2 := List.take_subset 64 _ hc
  have hmap : ∀ d ∈ l.map (fun c => if allowedToolChar c then c else '_'),
      allowedToolChar d = true := by
    intro d hd
    rcases List.mem_map.mp hd with ⟨e, _, he⟩
    by_cases hall : allowedToolChar e = true
    · rw [if_pos hall] at he; rwa [he] at hall
    · rw [if_neg hall] at he; rw [← he]; decide
  by_cases hh : toolHeadOk (l.map fun c => if allowedToolChar c then c else '_') = true
  · rw [if_pos hh] at hc2; exact hmap c hc2
  · rw [if_neg hh] at hc2
    rcases List.mem_cons.mp hc2 with h | h
    · rw [h]; decide
    · exact hmap c h

theorem sanitizeCharsHeadOk (l : List Char) : toolHeadOk (sanitizeChars l) = true := by
  unfold sanitizeChars
  dsimp only
  by_cases hh : toolHeadOk (l.map fun c => if allowedToolChar c then c else '_') = true
  · rw [if_pos hh]
    rcases hr : l.map (fun c => if allowedToolChar c then c else '_') with _ | ⟨c, t⟩
    · rw [hr] at hh; exact absurd hh (by decide)
    · rw [hr] at hh
      rw [show (64 : Nat) = 63 + 1 from rfl, List.take_succ_cons]
      exact hh
  · rw [if_neg hh]
    rw [show (64 : Nat) = 63 + 1 from rfl, List.take_succ_cons]
    rfl

theorem sanitizeCharsLen (l : List Char) : (sanitizeChars l).length ≤ 64 := by
  unfold sanitizeChars
  rw [List.length_take]
  exact min_le_left _ _

theorem sanitizeCharsFixed (m : List Char) (h1 : ∀ c ∈ m, allowedToolChar c = true)
    (h2 : toolHeadOk m = true) (h3 : m.length ≤ 64) : sanitizeChars m = m := by
  unfold sanitizeChars
  dsimp only
  rw [mapAllowedId m h1, if_pos h2, List.take_of_length_le h3]

/-- C9: tool name sanitization is idempotent — for every string `s`,
`sanitizeToolName (sanitizeToolName s) = sanitizeToolName s`, where
sanitization replaces disallowed characters with underscores, prepends an
underscore when the first character is not a letter or underscore, and
truncates to 64 characters. -/
theorem sanitizeToolNameIdem (s : String) :
    sanitizeToolName (sanitizeToolName s) = sanitizeToolName s := by
  show String.mk (sanitizeChars (sanitizeChars s.toList)) = String.mk (sanitizeChars s.toList)
  rw [sanitizeCharsFixed _ (sanitizeCharsAllowed _) (sanitizeCharsHeadOk _) (sanitizeCharsLen _)]

theorem mem_setReg {m : List (String × String × String)} {k : String}
    {v : String × String} {e : String × String × String}
    (h : e ∈ setReg m k v) : e = (k, v) ∨ e ∈ m := by
  induction m with
  | nil => simpa [setReg] using h
  | cons p t ih =>
    unfold setReg at h
    by_cases hk : p.1 = k
    · rw [if_pos hk] at h
      rcases List.mem_cons.mp h with h1 | h1
      · exact Or.inl h1
      · exact Or.inr (List.mem_cons_of_mem _ h1)
    · rw [if_neg hk] at h
      rcases List.mem_cons.mp h with h1 | h1
      · exact Or.inr (by rw [h1]; exact List.mem_cons_self _ _)
      · rcases ih h1 with h2 | h2
        · exact Or.inl h2
        · exact Or.inr (List.mem_cons_of_mem _ h2)

theorem mem_setClient_self (cs : List String) (name : String) :
    name ∈ setClient cs name := by
  unfold setClient
  by_cases h : name ∈ cs
  · rwa [if_pos h]
  · rw [if_neg h]; exact List.mem_append_right _ (List.mem_singleton.mpr rfl)

theorem setClient_sub (cs : List String) (name : String) :
    cs ⊆ setClient cs name := by
  unfold setClient
  by_cases h : name ∈ cs
  · rw [if_pos h]; exact fun x hx => hx
  · rw [if_neg h]; exact List.subset_append_left _ _


theorem foldReg_mem (name : String) :
    ∀ (tools : List String) (r : List (String × String × String))
      (e : String × String × String),
      e ∈ tools.foldl
        (fun r t => setReg r (sanitizeToolName (name ++ "__" ++ t)) (name, t)) r →
      e ∈ r ∨ e.2.1 = name := by
  intro tools
  induction tools with
  | nil => intro r e h; exact Or.inl h
  | cons t ts ih =>
    intro r e h
    rcases ih _ e h with h1 | h1
    · rcases mem_setReg h1 with h2 | h2
      · rw [h2]; exact Or.inr rfl
      · exact Or.inl h2
    · exact Or.inr h1

theorem inv_addServer {s : McpState} (name : String) (tools : List String)
    (h : McpInv s) : McpInv (addServer s name tools) := by
  intro e he
  rcases foldReg_mem name tools s.registry e he with h1 | h1
  · exact setClient_sub _ _ (h e h1)
  · rw [h1]; exact mem_setClient_self _ _

theorem inv_disconnect {s : McpState} (name : String) (h : McpInv s) :
    McpInv (applyDisconnect s name) := by
  intro e he
  unfold applyDisconnect at he ⊢
  by_cases hm : name ∈ s.clients
  · rw [if_pos hm] at he ⊢
    rcases List.mem_filter.mp he with ⟨he1, he2⟩
    exact List.mem_filter.mpr ⟨h e he1, he2⟩
  · rw [if_neg hm] at he ⊢
    exact h e he

theorem inv_applyMcpOp {s : McpState} (op : McpOp) (h : McpInv s) :
    McpInv (applyMcpOp s op) := by
  cases op with
  | connectOk name tools => exact inv_addServer name tools (inv_disconnect name h)
  | connectFail name => exact inv_disconnect name h
  | bootOk name tools => exact inv_addServer name tools h
  | bootFail _ => exact h
  | disconnect name => exact inv_disconnect name h
  | shutdown => intro e he; cases he

theorem inv_foldOps : ∀ (ops : List McpOp) (s : McpState), McpInv s →
    McpInv (ops.foldl applyMcpOp s) := by
  intro ops
  induction ops with
  | nil => intro s h; exact h
  | cons op t ih => intro s h; exact ih _ (inv_applyMcpOp op h)

theorem inv_runMcpOps (ops : List McpOp) : McpInv (runMcpOps ops) :=
  inv_foldOps ops emptyMcpState (fun e he => by cases he)

theorem lookupReg_mem {m : List (String × String × String)} {k : String}
    {v : String × String} (h : lookupReg m k = some v) : (k, v) ∈ m := by
  induction m with
  | nil => simp [lookupReg] at h
  | cons p t ih =>
    unfold lookupReg at h
    by_cases hk : p.1 = k
    · rw [if_pos hk] at h
      have : p = (k, v) := by
        cases p with
        | mk a b => cases h with | refl => rw [← hk]
      rw [← this]; exact List.mem_cons_self _ _
    · rw [if_neg hk] at h
      exact List.mem_cons_of_mem _ (ih h)

/-- C10: after any sequence of registry operations, every registered tool
name maps to a server with a live client entry; hence for every name
`isMcpTool` accepts, the "server not connected" branch of `callMcpTool` is
unreachable; and disconnecting a server removes exactly the registry
entries of that server (and its client entry), leaving everything else
unchanged. -/
theorem mcpRegistryLiveInvariant (ops : List McpOp) :
    (∀ k sv orig, lookupReg (runMcpOps ops).registry k = some (sv, orig) →
      sv ∈ (runMcpOps ops).clients) ∧
    (∀ n, isMcpTool (runMcpOps ops) n = true →
      callMcpToolBranch (runMcpOps ops) n ≠ McpDispatch.notConnected) ∧
    (∀ srv,
      (applyMcpOp (runMcpOps ops) (.disconnect srv)).registry =
        (runMcpOps ops).registry.filter (fun e => e.2.1 != srv) ∧
      (applyMcpOp (runMcpOps ops) (.disconnect srv)).clients =
        (runMcpOps ops).clients.filter (fun c => c != srv)) := by
  have hinv : McpInv (runMcpOps ops) := inv_runMcpOps ops
  refine ⟨?_, ?_, ?_⟩
  · intro k sv orig h
    exact hinv (k, sv, orig) (lookupReg_mem h)
  · intro n hmc
    unfold isMcpTool at hmc
    unfold callMcpToolBranch
    rcases hl : lookupReg (runMcpOps ops).registry n with _ | ⟨sv, orig⟩
    · rw [hl] at hmc; simp at hmc
    · have hsv : sv ∈ (runMcpOps ops).clients :=
        hinv (n, sv, orig) (lookupReg_mem hl)
      simp [hsv]
  · intro srv
    show (applyDisconnect (runMcpOps ops) srv).registry = _ ∧
      (applyDisconnect (runMcpOps ops) srv).clients = _
    unfold applyDisconnect
    by_cases hm : srv ∈ (runMcpOps ops).clients
    · rw [if_pos hm]; exact ⟨rfl, rfl⟩
    · rw [if_neg hm]
      constructor
      · symm
        apply List.filter_eq_self.mpr
        intro e he
        have := hinv e he
        have hne : e.2.1 ≠ srv := fun hEq => hm (hEq ▸ this)
        simpa [bne] using hne
      · symm
        apply List.filter_eq_self.mpr
        intro c hc
        have hne : c ≠ srv := fun hEq => hm (hEq ▸ hc)
        simpa [bne] using hne

/-- C10 witness: on the sample run, the registered tool of the still-live
server resolves to a connected server and never hits the not-connected
branch. -/
theorem mcpRegistryLiveInvariantWitness :
    ("beta" ∈ (runMcpOps mcpDemoOps).clients) ∧
    (callMcpToolBranch (runMcpOps mcpDemoOps) "beta__t2" ≠ McpDispatch.notConnected) :=
  ⟨(mcpRegistryLiveInvariant mcpDemoOps).1 "beta__t2" "beta" "t2" (by rfl),
   (mcpRegistryLiveInvariant mcpDemoOps).2.1 "beta__t2" (by rfl)⟩

theorem lookup_setField_self : (fs : JsF) → (k : String) → (x : Js) →
    JsF.lookup (fs.setField k x) k = some x
  | .nil, k, x => by simp [JsF.setField, JsF.lookup]
  | .cons k' v t, k, x => by
    unfold JsF.setField
    by_cases hk : k' = k
    · rw [if_pos hk]; simp [JsF.lookup]
    · rw [if_neg hk]; unfold JsF.lookup; rw [if_neg hk]
      exact lookup_setField_self t k x

theorem objSet_read_same (fs : JsF) (k : String) (x : Js) :
    jsRead (objSet (Js.obj fs) k x) k = x := by
  simp [objSet, jsRead, lookup_setField_self]

mutual
theorem cloneIdJs : (v : Js) → noUndefined v = true → jsonClone v = v
  | .null, _ => rfl
  | .bool _, _ => rfl
  | .num _, _ => rfl
  | .str _, _ => rfl
  | .undefined, h => by simp [noUndefined] at h
  | .arr xs, h => by
    rw [jsonClone, cloneIdL xs (by simpa [noUndefined] using h)]
  | .obj fs, h => by
    rw [jsonClone, cloneIdF fs (by simpa [noUndefined] using h)]
theorem cloneIdL : (xs : JsL) → noUndefinedL xs = true → jsonCloneL xs = xs
  | .nil, _ => rfl
  | .cons x t, h => by
    rw [noUndefinedL, Bool.and_eq_true] at h
    cases x with
    | undefined => simp [noUndefined] at h
    | null => simp [jsonCloneL, cloneIdJs _ h.1, cloneIdL t h.2]
    | bool b => simp [jsonCloneL, cloneIdJs _ h.1, cloneIdL t h.2]
    | num n => simp [jsonCloneL, cloneIdJs _ h.1, cloneIdL t h.2]
    | str s => simp [jsonCloneL, cloneIdJs _ h.1, cloneIdL t h.2]
    | arr ys => simp [jsonCloneL, cloneIdJs _ h.1, cloneIdL t h.2]
    | obj gs => simp [jsonCloneL, cloneIdJs _ h.1, cloneIdL t h.2]
theorem cloneIdF : (fs : JsF) → noUndefinedF fs = true → jsonCloneF fs = fs
  | .nil, _ => rfl
  | .cons k v t, h => by
    rw [noUndefinedF, Bool.and_eq_true] at h
    have hv : v.isUndefined = false := by
      cases v <;> first | rfl | (simp [noUndefined] at h)
    rw [jsonCloneF, if_neg (by simp [hv]), cloneIdJs _ h.1, cloneIdF t h.2]
end

theorem mapHeaderColsTotal : (xs : JsL) → nonNullishElems xs = true →
    ∃ ys, mapHeaderCols xs = .ok ys
  | .nil, _ => ⟨.nil, rfl⟩
  | .cons c t, h => by
    rw [nonNullishElems, Bool.and_eq_true] at h
    have hc : c.nullish = false := by simpa using h.1
    obtain ⟨ys, hys⟩ := mapHeaderColsTotal t h.2
    exact ⟨.cons (jsOr (jsRead c "header")
        (jsOr (jsRead c "label") (jsOr (jsRead c "key") c))) ys,
      by simp [mapHeaderCols, hc, hys]⟩

theorem tableRowTotal (r : Js) (h : r.nullish = false) : ∃ s, tableRow r = .ok s := by
  cases r with
  | null => simp [Js.nullish] at h
  | undefined => simp [Js.nullish] at h
  | bool b => exact ⟨_, rfl⟩
  | num n => exact ⟨_, rfl⟩
  | str s => exact ⟨_, rfl⟩
  | arr cs => exact ⟨_, rfl⟩
  | obj fs => exact ⟨_, rfl⟩

theorem renderRowsTotal : (rs : JsL) → nonNullishElems rs = true →
    ∃ s, renderRows rs = .ok s
  | .nil, _ => ⟨"", rfl⟩
  | .cons r t, h => by
    rw [nonNullishElems, Bool.and_eq_true] at h
    obtain ⟨s1, hs1⟩ := tableRowTotal r (by simpa using h.1)
    obtain ⟨s2, hs2⟩ := renderRowsTotal t h.2
    exact ⟨s1 ++ s2, by simp [renderRows, hs1, hs2]⟩

theorem mcpMatcherChartsTotal (label : String) (cd : Js) (h : safeCharts cd = true) :
    ∃ o, mcpMatcherCharts label cd = .ok o := by
  unfold mcpMatcherCharts
  split
  · next firstChart rest heq =>
    unfold safeCharts at h
    rw [heq] at h
    have hn : firstChart.nullish = false := by simpa using h
    have hok : jsGet firstChart "type" = .ok (jsRead firstChart "type") := by
      simp [jsGet, hn]
    rw [hok]
    dsimp only
    split
    · exact ⟨_, rfl⟩
    · split
      · exact ⟨_, rfl⟩
      · exact ⟨_, rfl⟩
  · exact ⟨none, rfl⟩

theorem objSet_nonObj (v : Js) (k : String) (x : Js) (h : (∀ fs, v ≠ Js.obj fs)) :
    objSet v k x = v := by
  cases v with
  | obj fs => exact absurd rfl (h fs)
  | null => rfl
  | undefined => rfl
  | bool b => rfl
  | num n => rfl
  | str s => rfl
  | arr xs => rfl

theorem mcpMatcherChartJsTotal (label : String) (cd : Js) (hU : noUndefined cd = true)
    (hO : safeOptions cd = true) : ∃ o, mcpMatcherChartJs label cd = .ok o := by
  unfold mcpMatcherChartJs
  by_cases hg : ((jsGetOpt cd "type").truthy = true ∧
      ((jsGetOpt (jsGetOpt cd "data") "datasets").isArr = true))
  case neg => rw [if_neg hg]; exact ⟨none, rfl⟩
  case pos =>
    rw [if_pos hg]
    obtain ⟨fs, rfl⟩ : ∃ fs, cd = Js.obj fs := by
      cases cd with
      | obj fs => exact ⟨fs, rfl⟩
      | null => simp [jsGetOpt, Js.nullish, Js.truthy] at hg
      | undefined => simp [jsGetOpt, Js.nullish, Js.truthy] at hg
      | bool b => simp [jsGetOpt, jsRead, Js.nullish, Js.truthy] at hg
      | num n => simp [jsGetOpt, jsRead, Js.nullish, Js.truthy] at hg
      | str s => simp [jsGetOpt, jsRead, Js.nullish, Js.truthy] at hg
      | arr xs => simp [jsGetOpt, jsRead, Js.nullish, Js.truthy] at hg
    rw [cloneIdJs _ hU]
    dsimp only
    have hO' := hO
    unfold safeOptions at hO'
    rcases hlo : JsF.lookup fs "options" with _ | v
    · simp only [jsGetOpt, jsRead, Js.nullish, hlo] at hO' ⊢
      simp [Js.truthy, deleteOptionsPluginsTitle, objSet, lookup_setField_self,
        jsRead, jobj, JsF.ofList, hlo]
    · cases v with
      | null =>
        simp only [jsGetOpt, jsRead, Js.nullish, hlo] at hO' ⊢
        simp [Js.truthy, deleteOptionsPluginsTitle, objSet, lookup_setField_self,
          jsRead, jobj, JsF.ofList, hlo]
      | undefined =>
        simp only [jsGetOpt, jsRead, Js.nullish, hlo] at hO' ⊢
        simp [Js.truthy, deleteOptionsPluginsTitle, objSet, lookup_setField_self,
          jsRead, jobj, JsF.ofList, hlo]
      | bool b =>
        simp only [jsGetOpt, jsRead, Js.nullish, hlo] at hO' ⊢
        have hb : b = false := by simpa using hO'
        subst hb
        simp [Js.truthy, deleteOptionsPluginsTitle, objSet, lookup_setField_self,
          jsRead, jobj, JsF.ofList, hlo]
      | num n =>
        simp only [jsGetOpt, jsRead, Js.nullish, hlo] at hO' ⊢
        have hn : n = 0 := by simpa using hO'
        subst hn
        simp [Js.truthy, deleteOptionsPluginsTitle, objSet, lookup_setField_self,
          jsRead, jobj, JsF.ofList, hlo]
      | str s =>
        simp only [jsGetOpt, jsRead, Js.nullish, hlo] at hO' ⊢
        have hs : s = "" := by simpa using hO'
        subst hs
        simp [Js.truthy, deleteOptionsPluginsTitle, objSet, lookup_setField_self,
          jsRead, jobj, JsF.ofList, hlo]
      | arr xs =>
        simp only [jsGetOpt, jsRead, Js.nullish, hlo] at hO' ⊢
        simp [Js.truthy, deleteOptionsPluginsTitle, objSet, lookup_setField_self,
          jsRead, jobj, JsF.ofList, hlo]
      | obj os =>
        simp only [jsGetOpt, jsRead, Js.nullish, hlo] at hO' ⊢
        simp [Js.truthy, deleteOptionsPluginsTitle, objSet, lookup_setField_self,
          jsRead, jobj, JsF.ofList, hlo]
        split_ifs <;>
          simp [lookup_setField_self, Js.truthy, jsRead, hlo]

theorem jsOrSafeRows (a b : Js) (ha : safeRowsVal a = true) (hb : safeRowsVal b = true) :
    safeRowsVal (jsOr a (jsOr b Js.null)) = true := by
  unfold jsOr
  split_ifs <;> first | exact ha | exact hb | rfl

theorem mcpMatcherTableTotal (label : String) (cd : Js)
    (hH : safeHeaders cd = true) (hC : safeColumns cd = true)
    (hR : safeRowsVal (jsGetOpt cd "rows") = true)
    (hD : safeRowsVal (jsGetOpt cd "data") = true) :
    ∃ o, mcpMatcherTable label cd = .ok o := by
  unfold mcpMatcherTable
  have hHE : ∃ hv, (if (jsGetOpt cd "headers").truthy then Except.ok (jsGetOpt cd "headers")
      else match jsGetOpt cd "columns" with
        | .null => Except.ok Js.null
        | .undefined => Except.ok Js.null
        | .arr xs =>
          match mapHeaderCols xs with
          | .error e => .error e
          | .ok mapped => .ok (Js.arr mapped)
        | _ => Except.error ()) = .ok hv ∧ (hv.truthy = true → hv.isArr = true) := by
    by_cases hh0 : (jsGetOpt cd "headers").truthy = true
    · refine ⟨_, by rw [if_pos hh0], ?_⟩
      intro _
      unfold safeHeaders at hH
      rcases hhv : jsGetOpt cd "headers" with _ | _ | b | n | s | xs | os
      all_goals rw [hhv] at hH hh0
      all_goals simp_all [Js.truthy, Js.isArr]
    · rw [if_neg hh0]
      unfold safeColumns at hC
      rcases hcv : jsGetOpt cd "columns" with _ | _ | b | n | s | xs | os
      all_goals rw [hcv] at hC
      · exact ⟨Js.null, rfl, by simp [Js.truthy]⟩
      · exact ⟨Js.null, rfl, by simp [Js.truthy]⟩
      · simp at hC
      · simp at hC
      · simp at hC
      · dsimp only at hC
        obtain ⟨ys, hys⟩ := mapHeaderColsTotal xs hC
        refine ⟨Js.arr ys, ?_, fun _ => rfl⟩
        dsimp only
        rw [hys]
      · simp at hC
  obtain ⟨hv, hveq, hvarr⟩ := hHE
  rw [hveq]
  dsimp only
  by_cases hcond : hv.truthy = true ∨
      (jsOr (jsGetOpt cd "rows") (jsOr (jsGetOpt cd "data") Js.null)).truthy = true
  · rw [if_pos hcond]
    have hTH : ∃ th, (if hv.truthy then
        match hv with
        | Js.arr xs => Except.ok ("<tr>" ++
            String.join ((JsL.toList xs).map fun h => "<th>" ++ h.display ++ "</th>") ++ "</tr>")
        | _ => Except.error ()
      else Except.ok "") = .ok th := by
      by_cases hvt : hv.truthy = true
      · have harr := hvarr hvt
        rcases hv with _ | _ | b | n | s | xs | os <;> simp [Js.isArr] at harr
        rw [if_pos hvt]
        exact ⟨_, rfl⟩
      · rw [if_neg hvt]
        exact ⟨"", rfl⟩
    obtain ⟨th, hth⟩ := hTH
    rw [hth]
    dsimp only
    have hrows := jsOrSafeRows _ _ hR hD
    have hTB : ∃ tb, (match jsOr (jsGetOpt cd "rows") (jsOr (jsGetOpt cd "data") Js.null) with
        | Js.arr rs => renderRows rs
        | _ => Except.ok "") = .ok tb := by
      rcases hrv : jsOr (jsGetOpt cd "rows") (jsOr (jsGetOpt cd "data") Js.null) with
        _ | _ | b | n | s | rs | os
      · exact ⟨"", rfl⟩
      · exact ⟨"", rfl⟩
      · exact ⟨"", rfl⟩
      · exact ⟨"", rfl⟩
      · exact ⟨"", rfl⟩
      · rw [hrv] at hrows
        unfold safeRowsVal at hrows
        exact renderRowsTotal rs hrows
      · exact ⟨"", rfl⟩
    obtain ⟨tb, htb⟩ := hTB
    rw [htb]
    exact ⟨_, rfl⟩
  · rw [if_neg hcond]
    exact ⟨none, rfl⟩

/-- C7 counterexample: on the malformed structured datum `{charts: [null]}`
the classifier dereferences `.type` on the null first chart entry and
throws a `TypeError` instead of returning an artifact, refuting the claim
that classification never throws on malformed structured data. -/
theorem buildMcpDataArtifactThrows :
    buildMcpDataArtifact "srv__ask_agent" (jobj [("charts", jarr [Js.null])]) =
      .error () := rfl

/-- C7 (amended): artifact classification is a deterministic function that
tries the prioritized matcher chain (multi-chart/grid container, then
single chart configuration, then tabular shape, then pretty-printed
fallback) with the first match winning, and returns exactly one artifact
without throwing on every `JSON.parse`-shaped input whose pathological
shapes are excluded: a nullish first `charts` entry, a truthy primitive
`options`, a truthy non-array `headers`, a non-nullish non-array `columns`,
and nullish entries inside `columns` or array `rows`/`data` (on those the
source throws, as the counterexample shows). -/
theorem buildMcpDataArtifactTotal (toolName : String) (cd : Js)
    (h : wfChartData cd = true) :
    ∃ a, buildMcpDataArtifact toolName cd = .ok a := by
  unfold wfChartData at h
  simp only [Bool.and_eq_true] at h
  obtain ⟨⟨⟨⟨⟨⟨hU, hSC⟩, hSO⟩, hSH⟩, hCo⟩, hRr⟩, hRd⟩ := h
  unfold buildMcpDataArtifact
  dsimp only
  obtain ⟨o1, ho1⟩ := mcpMatcherChartsTotal (mcpLabel toolName) cd hSC
  rw [ho1]
  cases o1 with
  | some a => exact ⟨a, rfl⟩
  | none =>
    obtain ⟨o2, ho2⟩ := mcpMatcherChartJsTotal (mcpLabel toolName) cd hU hSO
    rw [ho2]
    cases o2 with
    | some a => exact ⟨a, rfl⟩
    | none =>
      obtain ⟨o3, ho3⟩ := mcpMatcherTableTotal (mcpLabel toolName) cd hSH hCo hRr hRd
      rw [ho3]
      cases o3 with
      | some a => exact ⟨a, rfl⟩
      | none => exact ⟨_, rfl⟩

/-- C7 witness: concrete well-formed tabular data is classified without
throwing. -/
theorem buildMcpDataArtifactTotalWitness :
    wfChartData c7DemoData = true ∧
    (buildMcpDataArtifact "srv__grid" c7DemoData).toOption.isSome = true := by
  refine ⟨by rfl, ?_⟩
  obtain ⟨a, ha⟩ := buildMcpDataArtifactTotal "srv__grid" c7DemoData (by rfl)
  rw [ha]
  rfl

/-- C8: for every call name and argument object, dispatch returns a plain
result value and never throws across the dispatch boundary. The built-in
dispatcher has return type `Js` (not `Except`): its try/catch converts any
thrown exception into a `{error: message}` failure object (second
conjunct), and a name matching no built-in handler yields the
`Unknown function` failure (first conjunct). The external dispatcher
likewise returns failure objects for unknown tool names (third conjunct)
and converts thrown provider calls into `MCP tool error` failures (fourth
conjunct). -/
theorem dispatchAlwaysReturns :
    (∀ (env : BuiltinEnv) (uloc : Js) (name : String) (args : Js),
      name ∉ builtinToolNames →
      executeFunctionCall env uloc name args = jsErr ("Unknown function: " ++ name)) ∧
    (∀ (env : BuiltinEnv) (uloc : Js) (name : String) (args : Js) (msg : String),
      executeFunctionCallBody env uloc name args = .error msg →
      executeFunctionCall env uloc name args = jsErr msg) ∧
    (∀ (s : McpState) (env : McpEnv) (name : String) (args : Js),
      lookupReg s.registry name = none →
      callMcpTool s env name args = jsErr ("Unknown MCP tool: " ++ name)) ∧
    (∀ (s : McpState) (env : McpEnv) (name : String) (args : Js)
      (sv orig msg : String),
      lookupReg s.registry name = some (sv, orig) → sv ∈ s.clients →
      env.callTool orig args = .error msg →
      callMcpTool s env name args = jsErr ("MCP tool error: " ++ msg)) := by
  refine ⟨?_, ?_, ?_, ?_⟩
  · intro env uloc name args h
    simp only [builtinToolNames, List.mem_cons, List.not_mem_nil, or_false, not_or] at h
    obtain ⟨h1, h2, h3, h4, h5, h6, h7, h8, h9⟩ := h
    unfold executeFunctionCall executeFunctionCallBody
    rw [if_neg h1, if_neg h2, if_neg h3, if_neg h4, if_neg h5, if_neg h6,
      if_neg h7, if_neg h8, if_neg h9]
  · intro env uloc name args msg h
    unfold executeFunctionCall
    rw [h]
  · intro s env name args h
    unfold callMcpTool
    rw [h]
    rfl
  · intro s env name args sv orig msg h hm hc
    unfold callMcpTool
    rw [h]
    dsimp only
    rw [if_pos hm, hc]
    rfl

/-- C8 witness: an unknown built-in name, an unknown external name, and a
throwing provider call each come back as failure objects. -/
theorem dispatchAlwaysReturnsWitness :
    executeFunctionCall trivialBuiltinEnv Js.null "mystery_tool" (jobj []) =
      jsErr "Unknown function: mystery_tool" ∧
    callMcpTool emptyMcpState failingMcpEnv "nope" (jobj []) =
      jsErr "Unknown MCP tool: nope" ∧
    callMcpTool oneToolMcpState failingMcpEnv "srv__t" (jobj []) =
      jsErr "MCP tool error: boom" :=
  ⟨dispatchAlwaysReturns.1 trivialBuiltinEnv Js.null "mystery_tool" (jobj [])
    (by decide),
   dispatchAlwaysReturns.2.2.1 emptyMcpState failingMcpEnv "nope" (jobj []) rfl,
   dispatchAlwaysReturns.2.2.2 oneToolMcpState failingMcpEnv "srv__t" (jobj [])
    "srv" "t" "boom" rfl (by decide) rfl⟩

theorem reactAuxStepsLe (env : ChatEnv) :
    ∀ (rem : Nat) (resp : ModelResp) (steps succ : Nat) (st : LoopSt)
      (out : LoopOut), reactAux env rem resp steps succ st = .ok out →
      out.steps ≤ steps + rem := by
  intro rem
  induction rem with
  | zero =>
    intro resp steps succ st out h
    unfold reactAux at h
    rcases hc : resp.calls with _ | ⟨c, t⟩ <;> rw [hc] at h <;> dsimp only at h
    · cases h; simp
    · cases h; simp
  | succ rem ih =>
    intro resp steps succ st out h
    unfold reactAux at h
    rcases hc : resp.calls with _ | ⟨c, t⟩ <;> rw [hc] at h <;> dsimp only at h
    · cases h; simp
    · rcases hpc : processCalls env (c :: t) st succ with e | ⟨st', succ'⟩ <;>
        rw [hpc] at h
      · cases h
      · have := ih _ _ _ _ _ h
        omega

theorem runReActLoopStepsLe (env : ChatEnv) (maxSteps : Nat) (st : LoopSt)
    (out : LoopOut) (h : runReActLoop env maxSteps st = .ok out) :
    out.steps ≤ maxSteps := by
  unfold runReActLoop at h
  have := reactAuxStepsLe env maxSteps _ 0 0 _ out h
  omega

theorem retryLoopSpec (env : ChatEnv) (maxSteps success1 : Nat) :
    ∀ (rl : Nat) (resp : ModelResp) (st : LoopSt)
      (atts : List AttemptInfo) (resp' : ModelResp) (st' : LoopSt) (tot : Nat),
      retryLoop env maxSteps success1 rl resp st = .ok (atts, resp', st', tot) →
      atts.length ≤ rl ∧
      (atts ≠ [] → success1 = 0) ∧
      (∀ i t, i < atts.length →
        (resp.text :: atts.map AttemptInfo.text).get? i = some t →
        isUnsatisfactoryResponse t = true) ∧
      (resp.text :: atts.map AttemptInfo.text).getLast? = some resp'.text ∧
      tot = (atts.map AttemptInfo.steps).sum ∧
      (∀ a ∈ atts, a.steps ≤ maxSteps) ∧
      (atts.length < rl →
        ¬(success1 = 0 ∧ isUnsatisfactoryResponse resp'.text = true)) := by
  intro rl
  induction rl with
  | zero =>
    intro resp st atts resp' st' tot h
    unfold retryLoop at h
    cases h
    refine ⟨by simp, by simp, by simp, by simp, by simp, by simp, by omega⟩
  | succ rl ih =>
    intro resp st atts resp' st' tot h
    unfold retryLoop at h
    by_cases hcond : success1 = 0 ∧ isUnsatisfactoryResponse resp.text = true
    · rw [if_pos hcond] at h
      rcases hrun : runReActLoop env maxSteps st with e | out <;> rw [hrun] at h <;>
        dsimp only at h
      · cases h
      · rcases hrt : retryLoop env maxSteps success1 rl out.resp out.st with
          e | ⟨rest, resp2, st2, tot2⟩ <;> rw [hrt] at h <;> dsimp only at h
        · cases h
        · cases h
          obtain ⟨ihLen, _, ihUnsat, ihLast, ihSum, ihSteps, ihStop⟩ :=
            ih _ _ _ _ _ _ hrt
          refine ⟨by simpa using Nat.succ_le_succ ihLen, fun _ => hcond.1,
            ?_, ?_, ?_, ?_, ?_⟩
          · intro i t hi hget
            cases i with
            | zero =>
              simp at hget
              rw [← hget]; exact hcond.2
            | succ i =>
              simp only [List.map_cons, List.get?_cons_succ] at hget
              exact ihUnsat i t (by simpa using hi) hget
          · simpa [List.getLast?_cons_cons] using ihLast
          · simp [ihSum]
          · intro a ha
            rcases List.mem_cons.mp ha with ha1 | ha1
            · rw [ha1]
              exact runReActLoopStepsLe env maxSteps st out hrun
            · exact ihSteps a ha1
          · intro hlen
            exact ihStop (by simpa using hlen)
    · rw [if_neg hcond] at h
      cases h
      refine ⟨by simp, by simp, by simp, by simp, by simp, by simp, fun _ => hcond⟩

theorem chatDestruct (env : ChatEnv) (maxSteps maxRetries : Nat)
    (et : Option (List String)) (out : ChatOut)
    (h : chat env maxSteps maxRetries et = .ok out) :
    ∃ a0 retries resp st retSteps,
      runReActLoop env maxSteps ⟨0, 0, [], Js.null, []⟩ = .ok a0 ∧
      retryLoop env maxSteps a0.success maxRetries a0.resp a0.st =
        .ok (retries, resp, st, retSteps) ∧
      out = chatAssemble env et a0 retries resp st retSteps := by
  unfold chat at h
  rcases h0 : runReActLoop env maxSteps ⟨0, 0, [], Js.null, []⟩ with e | a0 <;>
    rw [h0] at h <;> dsimp only at h
  · cases h
  · rcases h1 : retryLoop env maxSteps a0.success maxRetries a0.resp a0.st with
      e | ⟨retries, resp, st, retSteps⟩ <;> rw [h1] at h <;> dsimp only at h
    · cases h
    · cases h
      exact ⟨a0, retries, resp, st, retSteps, rfl, h1, rfl⟩

/-- C1 (amended): a reflexion retry is performed exactly while retry budget
remains, the INITIAL attempt had zero successful tool calls, and the
current reply text is unsatisfactory; the controller never performs more
than `maxRetries` additional attempts and stops early once a reply becomes
satisfactory. (As the counterexample shows, a successful tool call during
a retry does not by itself stop retrying: the loop keeps consulting the
success count of the initial attempt, and the count of the retry itself is
discarded.) -/
theorem chatReflexionRetryPolicy (env : ChatEnv) (maxSteps maxRetries : Nat)
    (et : Option (List String)) (out : ChatOut)
    (h : chat env maxSteps maxRetries et = .ok out) :
    out.attempts.length ≤ 1 + maxRetries ∧
    (2 ≤ out.attempts.length →
      ∀ a0, out.attempts.head? = some a0 → a0.success = 0) ∧
    (∀ i t, i + 1 < out.attempts.length →
      (out.attempts.map AttemptInfo.text).get? i = some t →
      isUnsatisfactoryResponse t = true) ∧
    (out.attempts.length < 1 + maxRetries →
      ∀ a0 tl, out.attempts.head? = some a0 →
      (out.attempts.map AttemptInfo.text).getLast? = some tl →
      a0.success = 0 → isUnsatisfactoryResponse tl = false) := by
  obtain ⟨a0, retries, resp, st, retSteps, h0, h1, rfl⟩ :=
    chatDestruct env maxSteps maxRetries et out h
  obtain ⟨sLen, sNe, sUnsat, sLast, sSum, sSteps, sStop⟩ :=
    retryLoopSpec env maxSteps a0.success maxRetries a0.resp a0.st
      retries resp st retSteps h1
  have hatts : (chatAssemble env et a0 retries resp st retSteps).attempts =
      ⟨a0.steps, a0.success, a0.resp.text⟩ :: retries := rfl
  rw [hatts]
  refine ⟨?_, ?_, ?_, ?_⟩
  · simp only [List.length_cons]
    omega
  · intro h2 a0' ha0
    have hne : retries ≠ [] := by
      intro hr; rw [hr] at h2; simp at h2
    have hs := sNe hne
    simp only [List.head?_cons, Option.some.injEq] at ha0
    rw [← ha0]
    exact hs
  · intro i t hi hget
    exact sUnsat i t (by simpa using hi) (by simpa using hget)
  · intro hlen a0' tl ha0 htl hs0
    simp only [List.head?_cons, Option.some.injEq] at ha0
    have hs0' : a0.success = 0 := by rw [← ha0] at hs0; exact hs0
    have htl' : tl = resp.text := by
      simp only [List.map_cons] at htl
      rw [htl] at sLast
      exact (Option.some.injEq _ _).mp sLast.symm |>.symm
    have := sStop (by simp only [List.length_cons] at hlen; omega)
    rw [htl']
    by_contra hcon
    exact this ⟨hs0', by simpa using hcon⟩

/-- C1 witness: a confident long first answer triggers no retries, and the
retry bound holds on the concrete run. -/
theorem chatReflexionRetryPolicyWitness :
    chat c1DemoEnv 2 2 none = .ok c1DemoOut ∧
    c1DemoOut.attempts.length ≤ 1 + 2 :=
  ⟨by rfl, (chatReflexionRetryPolicy c1DemoEnv 2 2 none c1DemoOut (by rfl)).1⟩

/-- C1 counterexample: the initial attempt has zero successful calls and an
unsatisfactory reply; the first retry performs one successful tool call
(success count 1) yet its reply is still short, and the controller performs
a second retry anyway — refuting, at this concrete input, both "retry only
if zero tool calls succeeded on the attempt just completed" and "stops
early once a retry has a successful tool call". -/
theorem chatReflexionRetryCounterexample :
    chat c1xEnv 5 2 none = .ok c1xOut ∧
    c1xOut.attempts.map AttemptInfo.success = [0, 1, 0] ∧
    c1xOut.attempts.length = 3 :=
  ⟨by rfl, by rfl, by rfl⟩

/-- C2: the grounding fallback runs if and only if the total number of
tool-invocation steps across the initial attempt and all reflexion retries
is exactly zero and the tool-enable list of the caller does not exclude the
web-search capability (a missing/non-array list counts as enabled);
moreover when it does not run, no web citations are attached. -/
theorem chatGroundingTrigger (env : ChatEnv) (maxSteps maxRetries : Nat)
    (et : Option (List String)) (out : ChatOut)
    (h : chat env maxSteps maxRetries et = .ok out) :
    (out.groundingRan = true ↔
      ((out.attempts.map AttemptInfo.steps).sum = 0 ∧ webSearchEnabled et = true)) ∧
    (out.groundingRan = false → out.searchResults = Js.null) := by
  obtain ⟨a0, retries, resp, st, retSteps, h0, h1, rfl⟩ :=
    chatDestruct env maxSteps maxRetries et out h
  obtain ⟨_, _, _, _, sSum, _, _⟩ :=
    retryLoopSpec env maxSteps a0.success maxRetries a0.resp a0.st
      retries resp st retSteps h1
  constructor
  · have hg : (chatAssemble env et a0 retries resp st retSteps).groundingRan =
        ((a0.steps + retSteps == 0) && webSearchEnabled et) := rfl
    have hat : (chatAssemble env et a0 retries resp st retSteps).attempts =
        ⟨a0.steps, a0.success, a0.resp.text⟩ :: retries := rfl
    rw [hg, hat]
    simp only [List.map_cons, List.sum_cons, Bool.and_eq_true, beq_iff_eq]
    constructor
    · rintro ⟨hz, hw⟩
      refine ⟨?_, hw⟩
      have : a0.steps + retSteps = 0 := hz
      rw [← sSum]
      omega
    · rintro ⟨hz, hw⟩
      refine ⟨?_, hw⟩
      show a0.steps + retSteps = 0
      rw [sSum]
      simpa using hz
  · intro hgr
    unfold chatAssemble at hgr ⊢
    dsimp only at hgr ⊢
    rw [hgr]
    simp

/-- C2 witness: a run with zero tool steps and web search enabled triggers
the grounding fallback. -/
theorem chatGroundingTriggerWitness :
    chat c2DemoEnv 3 1 none = .ok c2DemoOut ∧ c2DemoOut.groundingRan = true :=
  ⟨by rfl,
   (chatGroundingTrigger c2DemoEnv 3 1 none c2DemoOut (by rfl)).1.mpr
     ⟨by rfl, rfl⟩⟩

/-- C3: every attempt (the initial run and every reflexion retry) performs
at most `maxSteps` dispatch rounds — the step budget is not shared or
decremented across retries, every attempt gets the full fresh allotment —
and the number of attempts is bounded by `1 + maxRetries`. (Termination is
inherent: `chat` is a total function of its oracles.) -/
theorem chatStepBudget (env : ChatEnv) (maxSteps maxRetries : Nat)
    (et : Option (List String)) (out : ChatOut)
    (h : chat env maxSteps maxRetries et = .ok out) :
    (∀ a ∈ out.attempts, a.steps ≤ maxSteps) ∧
    out.attempts.length ≤ 1 + maxRetries := by
  obtain ⟨a0, retries, resp, st, retSteps, h0, h1, rfl⟩ :=
    chatDestruct env maxSteps maxRetries et out h
  obtain ⟨sLen, _, _, _, _, sSteps, _⟩ :=
    retryLoopSpec env maxSteps a0.success maxRetries a0.resp a0.st
      retries resp st retSteps h1
  have hat : (chatAssemble env et a0 retries resp st retSteps).attempts =
      ⟨a0.steps, a0.success, a0.resp.text⟩ :: retries := rfl
  rw [hat]
  constructor
  · intro a ha
    rcases List.mem_cons.mp ha with h' | h'
    · rw [h']
      exact runReActLoopStepsLe env maxSteps _ a0 h0
    · exact sSteps a h'
  · simp only [List.length_cons]
    omega

/-- C3 witness: with `maxSteps = 2` both the initial attempt and the single
retry run exactly 2 dispatch rounds — each attempt used the full fresh
budget, demonstrating the budget is not shared across retries. -/
theorem chatStepBudgetWitness :
    chat c3DemoEnv 2 1 none = .ok c3DemoOut ∧
    (∀ a ∈ c3DemoOut.attempts, a.steps ≤ 2) ∧
    c3DemoOut.attempts.map AttemptInfo.steps = [2, 2] :=
  ⟨by rfl, (chatStepBudget c3DemoEnv 2 1 none c3DemoOut (by rfl)).1, by rfl⟩

theorem applyMapData_execLog (call : FnCall) (r : Js) (st : LoopSt) :
    (applyMapData call r st).execLog = st.execLog := by
  unfold applyMapData; split <;> rfl

theorem applyMapData_artifactRef (call : FnCall) (r : Js) (st : LoopSt) :
    (applyMapData call r st).artifactRef = st.artifactRef := by
  unfold applyMapData; split <;> rfl

theorem applyReadyArtifact_execLog (r : Js) (st : LoopSt) :
    (applyReadyArtifact r st).execLog = st.execLog := by
  unfold applyReadyArtifact; split <;> rfl

theorem applyReadyArtifact_allMapData (r : Js) (st : LoopSt) :
    (applyReadyArtifact r st).allMapData = st.allMapData := by
  unfold applyReadyArtifact; split <;> rfl

theorem applyMcp_fields (call : FnCall) (r : Js) (st st' : LoopSt)
    (h : applyMcpArtifact call r st = .ok st') :
    st'.execLog = st.execLog ∧ st'.allMapData = st.allMapData := by
  unfold applyMcpArtifact at h
  split at h
  · rcases hb : buildMcpDataArtifact call.name (jsRead r "mcpChartData") with e | a <;>
      rw [hb] at h
    · cases h
    · cases h; exact ⟨rfl, rfl⟩
  · cases h; exact ⟨rfl, rfl⟩

theorem mapInvStage (call : FnCall) (r : Js) (st : LoopSt) (h : MapInv st) :
    MapInv (applyMapData call r (logCall call r st)) := by
  unfold MapInv at h ⊢
  unfold applyMapData logCall
  by_cases hm : (jsRead r "mapData").truthy = true
  · rw [if_pos hm]
    dsimp only
    rw [h, List.filterMap_append]
    simp [mapEntryOf, hm]
  · rw [if_neg hm]
    dsimp only
    rw [h, List.filterMap_append]
    simp [mapEntryOf, hm]

theorem mapInvPipeline (call : FnCall) (r : Js) (st st' : LoopSt)
    (h : applyMcpArtifact call r
      (applyReadyArtifact r (applyMapData call r (logCall call r st))) = .ok st')
    (hm : MapInv st) : MapInv st' := by
  have h1 : MapInv (applyMapData call r (logCall call r st)) := mapInvStage call r st hm
  have h2 : MapInv (applyReadyArtifact r (applyMapData call r (logCall call r st))) := by
    unfold MapInv
    rw [applyReadyArtifact_execLog, applyReadyArtifact_allMapData]
    exact h1
  obtain ⟨hl, hmap⟩ := applyMcp_fields call r _ st' h
  unfold MapInv
  rw [hl, hmap]
  exact h2

theorem artInvPipeline (call : FnCall) (r : Js) (st st' : LoopSt)
    (h : applyMcpArtifact call r
      (applyReadyArtifact r (applyMapData call r (logCall call r st))) = .ok st')
    (hArt : ArtInv st) : ArtInv st' := by
  have hAlog : (applyReadyArtifact r (applyMapData call r (logCall call r st))).execLog =
      st.execLog ++ [(call, r)] := by
    rw [applyReadyArtifact_execLog, applyMapData_execLog]
    rfl
  by_cases hart : (jsRead r "artifactData").truthy = true
  · have hAref : (applyReadyArtifact r (applyMapData call r (logCall call r st))).artifactRef =
        jsRead r "artifactData" := by
      unfold applyReadyArtifact
      rw [if_pos hart]
    unfold applyMcpArtifact at h
    rw [if_neg (fun hc => hc.2 (by rw [hAref]; exact hart))] at h
    cases h
    intro a hlast
    rw [hAlog, List.filterMap_append] at hlast
    have hone : List.filterMap readyOf [(call, r)] = [jsRead r "artifactData"] := by
      simp [readyOf, hart]
    rw [hone, List.getLast?_concat] at hlast
    cases hlast
    exact ⟨hAref, by rw [hAref]; exact hart⟩
  · have hAref : (applyReadyArtifact r (applyMapData call r (logCall call r st))).artifactRef =
        st.artifactRef := by
      unfold applyReadyArtifact
      rw [if_neg hart, applyMapData_artifactRef]
      rfl
    have hfm : List.filterMap readyOf [(call, r)] = [] := by simp [readyOf, hart]
    unfold applyMcpArtifact at h
    split at h
    · next hcond =>
      rcases hb : buildMcpDataArtifact call.name (jsRead r "mcpChartData") with e | artifact <;>
        rw [hb] at h
      · cases h
      · cases h
        intro a hlast
        rw [show (({ (applyReadyArtifact r (applyMapData call r (logCall call r st))) with
            artifactRef := artifact } : LoopSt)).execLog =
          (applyReadyArtifact r (applyMapData call r (logCall call r st))).execLog from rfl,
          hAlog, List.filterMap_append, hfm, List.append_nil] at hlast
        obtain ⟨h1, h2⟩ := hArt a hlast
        exact absurd (by rw [hAref]; exact h2) hcond.2
    · next hcond =>
      cases h
      intro a hlast
      rw [hAlog, List.filterMap_append, hfm, List.append_nil] at hlast
      obtain ⟨h1, h2⟩ := hArt a hlast
      rw [hAref]
      exact ⟨h1, h2⟩

theorem processCallInv (env : ChatEnv) (st : LoopSt) (succ : Nat) (call : FnCall)
    (st' : LoopSt) (succ' : Nat)
    (h : processCall env st succ call = .ok (st', succ')) :
    (MapInv st → MapInv st') ∧ (ArtInv st → ArtInv st') := by
  unfold processCall at h
  dsimp only at h
  rcases hp : applyMcpArtifact call (env.exec st.callIdx call)
      (applyReadyArtifact (env.exec st.callIdx call)
        (applyMapData call (env.exec st.callIdx call)
          (logCall call (env.exec st.callIdx call) st))) with e | stX <;>
    rw [hp] at h
  · cases h
  · cases h
    exact ⟨fun hm => mapInvPipeline _ _ _ _ hp hm,
           fun ha => artInvPipeline _ _ _ _ hp ha⟩

theorem processCallsInv (env : ChatEnv) :
    ∀ (calls : List FnCall) (st : LoopSt) (succ : Nat) (st' : LoopSt) (succ' : Nat),
      processCalls env calls st succ = .ok (st', succ') →
      (MapInv st → MapInv st') ∧ (ArtInv st → ArtInv st') := by
  intro calls
  induction calls with
  | nil =>
    intro st succ st' succ' h
    cases h
    exact ⟨id, id⟩
  | cons c t ih =>
    intro st succ st' succ' h
    unfold processCalls at h
    rcases hp : processCall env st succ c with e | ⟨stM, succM⟩ <;> rw [hp] at h
    · cases h
    · obtain ⟨m1, a1⟩ := processCallInv env st succ c stM succM hp
      obtain ⟨m2, a2⟩ := ih stM succM st' succ' h
      exact ⟨fun hm => m2 (m1 hm), fun ha => a2 (a1 ha)⟩

theorem reactAuxInv (env : ChatEnv) :
    ∀ (rem : Nat) (resp : ModelResp) (steps succ : Nat) (st : LoopSt) (out : LoopOut),
      reactAux env rem resp steps succ st = .ok out →
      (MapInv st → MapInv out.st) ∧ (ArtInv st → ArtInv out.st) := by
  intro rem
  induction rem with
  | zero =>
    intro resp steps succ st out h
    unfold reactAux at h
    rcases hc : resp.calls with _ | ⟨c, t⟩ <;> rw [hc] at h <;> dsimp only at h <;>
      cases h <;> exact ⟨id, id⟩
  | succ rem ih =>
    intro resp steps succ st out h
    unfold reactAux at h
    rcases hc : resp.calls with _ | ⟨c, t⟩ <;> rw [hc] at h <;> dsimp only at h
    · cases h; exact ⟨id, id⟩
    · rcases hpc : processCalls env (c :: t) st succ with e | ⟨st', succ'⟩ <;>
        rw [hpc] at h
      · cases h
      · obtain ⟨m1, a1⟩ := processCallsInv env (c :: t) st succ st' succ' hpc
        obtain ⟨m2, a2⟩ := ih _ _ _ _ _ h
        exact ⟨fun hm => m2 (m1 hm), fun ha => a2 (a1 ha)⟩

theorem runReActLoopInv (env : ChatEnv) (maxSteps : Nat) (st : LoopSt)
    (out : LoopOut) (h : runReActLoop env maxSteps st = .ok out) :
    (MapInv st → MapInv out.st) ∧ (ArtInv st → ArtInv out.st) := by
  unfold runReActLoop at h
  dsimp only at h
  obtain ⟨m1, a1⟩ := reactAuxInv env maxSteps _ 0 0 _ out h
  exact ⟨fun hm => m1 hm, fun ha => a1 ha⟩

theorem retryLoopInv (env : ChatEnv) (maxSteps success1 : Nat) :
    ∀ (rl : Nat) (resp : ModelResp) (st : LoopSt)
      (atts : List AttemptInfo) (resp' : ModelResp) (st' : LoopSt) (tot : Nat),
      retryLoop env maxSteps success1 rl resp st = .ok (atts, resp', st', tot) →
      (MapInv st → MapInv st') ∧ (ArtInv st → ArtInv st') := by
  intro rl
  induction rl with
  | zero =>
    intro resp st atts resp' st' tot h
    unfold retryLoop at h
    cases h
    exact ⟨id, id⟩
  | succ rl ih =>
    intro resp st atts resp' st' tot h
    unfold retryLoop at h
    split at h
    · rcases hrun : runReActLoop env maxSteps st with e | out <;> rw [hrun] at h <;>
        dsimp only at h
      · cases h
      · rcases hrt : retryLoop env maxSteps success1 rl out.resp out.st with
          e | ⟨rest, resp2, st2, tot2⟩ <;> rw [hrt] at h <;> dsimp only at h
        · cases h
        · cases h
          obtain ⟨m1, a1⟩ := runReActLoopInv env maxSteps st out hrun
          obtain ⟨m2, a2⟩ := ih _ _ _ _ _ _ hrt
          exact ⟨fun hm => m2 (m1 hm), fun ha => a2 (a1 ha)⟩
    · cases h
      exact ⟨id, id⟩

/-- C4 (amended): when tool calls return ready-made artifacts (title plus
renderable body in `artifactData`), the final result carries the LAST such
artifact verbatim — each ready-made artifact overwrites the previously
selected one (the assignment on gemini.js 328 is unconditional), and a
structured-data artifact is only built while no artifact is set. The
original "first one wins, later ones are ignored" is refuted by the
counterexample. -/
theorem chatArtifactLastWins (env : ChatEnv) (maxSteps maxRetries : Nat)
    (et : Option (List String)) (out : ChatOut)
    (h : chat env maxSteps maxRetries et = .ok out) :
    ∀ a, (out.execLog.filterMap readyOf).getLast? = some a →
      out.artifactData = a := by
  obtain ⟨a0, retries, resp, st, retSteps, h0, h1, rfl⟩ :=
    chatDestruct env maxSteps maxRetries et out h
  have hA0 : ArtInv (⟨0, 0, [], Js.null, []⟩ : LoopSt) := by
    intro a ha; simp [List.filterMap] at ha
  have hA1 : ArtInv a0.st := (runReActLoopInv env maxSteps _ a0 h0).2 hA0
  have hA2 : ArtInv st :=
    (retryLoopInv env maxSteps a0.success maxRetries a0.resp a0.st
      retries resp st retSteps h1).2 hA1
  intro a ha
  have hout : (chatAssemble env et a0 retries resp st retSteps).execLog =
      st.execLog := rfl
  have hart : (chatAssemble env et a0 retries resp st retSteps).artifactData =
      st.artifactRef := rfl
  rw [hout] at ha
  rw [hart]
  exact (hA2 a ha).1

/-- C4 counterexample: two calls in one round each return a ready-made
artifact; the first one is the head of the ready-made sequence, yet the
final result carries the second — the first artifact does not win. -/
theorem chatArtifactFirstLoses :
    chat c4xEnv 5 2 none = .ok c4xOut ∧
    (c4xOut.execLog.filterMap readyOf).head? = some c4ArtifactOne ∧
    c4xOut.artifactData = c4ArtifactTwo ∧
    c4ArtifactOne ≠ c4ArtifactTwo := by
  refine ⟨by rfl, by rfl, by rfl, ?_⟩
  intro heq
  simp only [c4ArtifactOne, c4ArtifactTwo, jobj, JsF.ofList] at heq
  injection heq with h1
  injection h1 with hk hv ht
  injection hv with hs
  exact absurd hs (by decide)

/-- C4 witness: on the same run the last ready-made artifact is the one
returned. -/
theorem chatArtifactLastWinsWitness :
    chat c4xEnv 5 2 none = .ok c4xOut ∧ c4xOut.artifactData = c4ArtifactTwo :=
  ⟨by rfl, chatArtifactLastWins c4xEnv 5 2 none c4xOut (by rfl) c4ArtifactTwo (by rfl)⟩

/-- C5: the accumulated map payloads are exactly the labeled payloads of
the dispatched calls, in call order (label derived from the call name and
arguments by `getLabelForFunction`); zero payloads yield no final payload,
one yields the bare payload, and two or more yield the ordered multi
container preserving that order. -/
theorem chatMapDataMerge (env : ChatEnv) (maxSteps maxRetries : Nat)
    (et : Option (List String)) (out : ChatOut)
    (h : chat env maxSteps maxRetries et = .ok out) :
    out.allMapData = out.execLog.filterMap mapEntryOf ∧
    (out.allMapData = [] → out.mapData = Js.null) ∧
    (∀ x, out.allMapData = [x] → out.mapData = x.2) ∧
    (2 ≤ out.allMapData.length → out.mapData =
      jobj [("type", .str "multi"),
        ("steps", jarr (out.allMapData.map fun e =>
          jobj [("label", .str e.1), ("mapData", e.2)]))]) := by
  obtain ⟨a0, retries, resp, st, retSteps, h0, h1, rfl⟩ :=
    chatDestruct env maxSteps maxRetries et out h
  have hM0 : MapInv (⟨0, 0, [], Js.null, []⟩ : LoopSt) := rfl
  have hM1 : MapInv a0.st := (runReActLoopInv env maxSteps _ a0 h0).1 hM0
  have hM2 : MapInv st :=
    (retryLoopInv env maxSteps a0.success maxRetries a0.resp a0.st
      retries resp st retSteps h1).1 hM1
  have hall : (chatAssemble env et a0 retries resp st retSteps).allMapData =
      st.allMapData := rfl
  refine ⟨hM2, ?_, ?_, ?_⟩
  · intro hE
    rw [hall] at hE
    show (chatAssemble env et a0 retries resp st retSteps).mapData = Js.null
    unfold chatAssemble
    dsimp only
    rw [hE]
  · intro x hx
    rw [hall] at hx
    show (chatAssemble env et a0 retries resp st retSteps).mapData = x.2
    unfold chatAssemble
    dsimp only
    rw [hx]
  · intro h2
    rw [hall] at h2
    rcases hml : st.allMapData with _ | ⟨x, _ | ⟨y, l⟩⟩
    · rw [hml] at h2; simp at h2
    · rw [hml] at h2; simp at h2
    · show (chatAssemble env et a0 retries resp st retSteps).mapData = _
      unfold chatAssemble
      dsimp only
      rw [hml]

/-- C5 witness: two map-producing calls yield a two-entry ordered multi
container whose labels come from the call names and arguments. -/
theorem chatMapDataMergeWitness :
    chat c5DemoEnv 5 0 none = .ok c5DemoOut ∧
    c5DemoOut.allMapData =
      [("Map: Paris", Js.str "m1"), ("Search: cafes", Js.str "m2")] ∧
    c5DemoOut.mapData = jobj [("type", .str "multi"),
      ("steps", jarr (c5DemoOut.allMapData.map fun e =>
        jobj [("label", .str e.1), ("mapData", e.2)]))] := by
  refine ⟨by rfl, by rfl, ?_⟩
  exact (chatMapDataMerge c5DemoEnv 5 0 none c5DemoOut (by rfl)).2.2.2 (by rfl)

/-- C6 (amended): the additional summarize model call is issued exactly
once, when and only when the reply text is empty and at least one
tool-invocation step occurred across the request (even if no call
succeeded — which is the corrected part); when the summary runs the reply
is whatever the summary call returns (so an empty summary leaves an empty
reply, not an error), and otherwise the reply is the pre-summary text. -/
theorem chatSummaryFallback (env : ChatEnv) (maxSteps maxRetries : Nat)
    (et : Option (List String)) (out : ChatOut)
    (h : chat env maxSteps maxRetries et = .ok out) :
    (out.summaryRan = true ↔ (out.preSummaryReply = "" ∧ 0 < out.totalSteps)) ∧
    out.totalSteps = (out.attempts.map AttemptInfo.steps).sum ∧
    (out.summaryRan = true → out.reply = out.summaryText) ∧
    (out.summaryRan = false → out.reply = out.preSummaryReply) := by
  obtain ⟨a0, retries, resp, st, retSteps, h0, h1, rfl⟩ :=
    chatDestruct env maxSteps maxRetries et out h
  obtain ⟨_, _, _, _, sSum, _, _⟩ :=
    retryLoopSpec env maxSteps a0.success maxRetries a0.resp a0.st
      retries resp st retSteps h1
  refine ⟨?_, ?_, ?_, ?_⟩
  · have hs : (chatAssemble env et a0 retries resp st retSteps).summaryRan =
        (((chatAssemble env et a0 retries resp st retSteps).preSummaryReply == "") &&
          ((chatAssemble env et a0 retries resp st retSteps).totalSteps != 0)) := rfl
    rw [hs]
    simp only [Bool.and_eq_true, beq_iff_eq, bne_iff_ne, ne_eq]
    constructor
    · rintro ⟨h1', h2'⟩; exact ⟨h1', Nat.pos_of_ne_zero h2'⟩
    · rintro ⟨h1', h2'⟩; exact ⟨h1', Nat.pos_iff_ne_zero.mp h2'⟩
  · have ht : (chatAssemble env et a0 retries resp st retSteps).totalSteps =
        a0.steps + retSteps := rfl
    have hat : (chatAssemble env et a0 retries resp st retSteps).attempts =
        ⟨a0.steps, a0.success, a0.resp.text⟩ :: retries := rfl
    rw [ht, hat, sSum]
    simp
  · intro hsr
    unfold chatAssemble at hsr ⊢
    dsimp only at hsr ⊢
    rw [hsr]
    simp
  · intro hsr
    unfold chatAssemble at hsr ⊢
    dsimp only at hsr ⊢
    rw [hsr]
    simp

/-- C6 counterexample: one dispatched call fails (zero successful calls),
the reply is empty, and the summarize call is still issued — refuting "when
and only when ... at least one tool call succeeded". -/
theorem chatSummaryCounterexample :
    chat c6xEnv 5 0 none = .ok c6xOut ∧
    c6xOut.summaryRan = true ∧
    c6xOut.attempts.map AttemptInfo.success = [0] ∧
    c6xOut.reply = "Summary of the failed attempt." :=
  ⟨by rfl, by rfl, by rfl, by rfl⟩

/-- C6 witness: with a successful call and an empty reply, the reply is the
summary text. -/
theorem chatSummaryFallbackWitness :
    chat c6DemoEnv 5 0 none = .ok c6DemoOut ∧
    c6DemoOut.reply = c6DemoOut.summaryText :=
  ⟨by rfl,
   (chatSummaryFallback c6DemoEnv 5 0 none c6DemoOut (by rfl)).2.2.1 (by rfl)⟩
